import Mathlib

/-!
Verification of the legacy data import pipeline
(`backend/src/services/legacy-importer.ts`).

The development shallowly embeds the importer: pure helpers become Lean
functions, the PostgreSQL tables become explicit list-based state, and the
effectful pipeline becomes a state-passing function that also records an
event trace (status updates, log entries, truncations, staging writes).
JavaScript numbers are modelled as exact rationals (`Option ℚ`, with `none`
standing for a non-finite result), which is faithful for every property
stated here since none of them depends on floating-point rounding.
-/

namespace PosImport

/-! ## JavaScript string and number semantics -/

/-- Whitespace characters recognised by JS `String.prototype.trim` and by
`Number` string coercion (the WhiteSpace and LineTerminator productions). -/
def isJsWhitespace (c : Char) : Bool :=
  c = ' ' || c = '\t' || c = '\n' || c = '\r' ||
  c = Char.ofNat 0x0b || c = Char.ofNat 0x0c || c = Char.ofNat 0xa0 ||
  c = Char.ofNat 0x1680 || (0x2000 ≤ c.toNat && c.toNat ≤ 0x200a) ||
  c = Char.ofNat 0x2028 || c = Char.ofNat 0x2029 || c = Char.ofNat 0x202f ||
  c = Char.ofNat 0x205f || c = Char.ofNat 0x3000 || c = Char.ofNat 0xfeff

/-- Drop JS whitespace from both ends of a character list. -/
def trimChars (l : List Char) : List Char :=
  ((l.dropWhile isJsWhitespace).reverse.dropWhile isJsWhitespace).reverse

/-- JS `s.trim()`. -/
def jsTrim (s : String) : String := String.mk (trimChars s.data)

/-- Helper for `jsReplaceCommaDot`: replace the first comma of a character
list by a dot, leaving everything after it untouched. -/
def replaceFirstCommaAux : List Char → List Char
  | [] => []
  | c :: rest => if c = ',' then '.' :: rest else c :: replaceFirstCommaAux rest

/-- Models the JS expression `s.replace(',', '.')` from `normalizeNumber`:
with a string pattern, `replace` substitutes only the first occurrence. -/
def jsReplaceCommaDot (s : String) : String := String.mk (replaceFirstCommaAux s.data)

def isDecDigit (c : Char) : Bool := '0' ≤ c && c ≤ '9'

/-- Value of a list of decimal digits. -/
def decDigitsVal (l : List Char) : ℕ := l.foldl (fun a c => a * 10 + (c.toNat - 48)) 0

def isHexDigit (c : Char) : Bool :=
  isDecDigit c || ('a' ≤ c && c ≤ 'f') || ('A' ≤ c && c ≤ 'F')

def hexDigitVal (c : Char) : ℕ :=
  if isDecDigit c then c.toNat - 48
  else if 'a' ≤ c && c ≤ 'f' then c.toNat - 87
  else c.toNat - 55

def isOctDigit (c : Char) : Bool := '0' ≤ c && c ≤ '7'

def isBinDigit (c : Char) : Bool := c = '0' || c = '1'

/-- Value of a digit list in a given base. -/
def radixVal (base : ℕ) (val : Char → ℕ) (l : List Char) : ℕ :=
  l.foldl (fun a c => a * base + val c) 0

/-- Exponent part of a JS decimal literal: either nothing (exponent 0) or
`e`/`E`, an optional sign, and at least one digit. -/
def parseExpPart : List Char → Option ℤ
  | [] => some 0
  | c :: rest =>
    if c = 'e' || c = 'E' then
      match rest with
      | '+' :: ds => if ds ≠ [] && ds.all isDecDigit then some (decDigitsVal ds : ℤ) else none
      | '-' :: ds => if ds ≠ [] && ds.all isDecDigit then some (-(decDigitsVal ds : ℤ)) else none
      | ds => if ds ≠ [] && ds.all isDecDigit then some (decDigitsVal ds : ℤ) else none
    else none

/-- Unsigned JS decimal literal: `digits [. digits] [exp]` or `. digits [exp]`.
Returns `none` when the list is not such a literal (JS `NaN`). -/
def parseUnsignedDec (l : List Char) : Option ℚ :=
  let intDigits := l.takeWhile isDecDigit
  let rest := l.dropWhile isDecDigit
  match rest with
  | '.' :: rest2 =>
    let fracDigits := rest2.takeWhile isDecDigit
    let rest3 := rest2.dropWhile isDecDigit
    if intDigits.isEmpty && fracDigits.isEmpty then none
    else
      match parseExpPart rest3 with
      | some e =>
        some (((decDigitsVal intDigits : ℚ) +
          (decDigitsVal fracDigits : ℚ) / (10 : ℚ) ^ fracDigits.length) * (10 : ℚ) ^ e)
      | none => none
  | _ =>
    if intDigits.isEmpty then none
    else
      match parseExpPart rest with
      | some e => some ((decDigitsVal intDigits : ℚ) * (10 : ℚ) ^ e)
      | none => none

/-- Optionally signed decimal literal. `Infinity` would parse to a non-finite
value, which this model conflates with `NaN` as `none`: `normalizeNumber`
maps both to `null` through its `Number.isFinite` guard. -/
def parseSignedDec : List Char → Option ℚ
  | '+' :: rest => parseUnsignedDec rest
  | '-' :: rest => (parseUnsignedDec rest).map (fun q => -q)
  | l => parseUnsignedDec l

/-- Models JS `Number(s)` for a string `s`, restricted to finite results:
`some q` when the trimmed string is a StringNumericLiteral with finite value
`q`, and `none` when the conversion yields `NaN` or an infinity. A trimmed
empty string converts to `0`; hex/octal/binary literals admit no sign. -/
def jsStringToNumber (s : String) : Option ℚ :=
  match trimChars s.data with
  | [] => some 0
  | '0' :: c :: ds =>
    if c = 'x' || c = 'X' then
      if ds ≠ [] && ds.all isHexDigit then some ((radixVal 16 hexDigitVal ds : ℕ) : ℚ) else none
    else if c = 'o' || c = 'O' then
      if ds ≠ [] && ds.all isOctDigit then some ((radixVal 8 hexDigitVal ds : ℕ) : ℚ) else none
    else if c = 'b' || c = 'B' then
      if ds ≠ [] && ds.all isBinDigit then some ((radixVal 2 hexDigitVal ds : ℕ) : ℚ) else none
    else parseSignedDec ('0' :: c :: ds)
  | l => parseSignedDec l

/-- Values read back from the staging tables: every staging column is SQL
`text`, so a cell is either a string or SQL NULL. -/
abbrev DbVal := Option String

/-- JS truthiness of a `string | null | undefined` value: null, undefined and
the empty string are falsy; every other string is truthy. -/
def truthy : DbVal → Bool
  | none => false
  | some s => s ≠ ""

/-- The importer's `normalizeNumber`, on the `string | null` domain the
pipeline feeds it (staging cells): null/undefined and `''` give null;
otherwise the string has its first comma replaced by a dot and is converted
with `Number`, keeping only finite results. The `typeof value === 'number'`
branch of the source never fires on this domain. -/
def normalizeNumber : DbVal → Option ℚ
  | none => none
  | some s => if s = "" then none else jsStringToNumber (jsReplaceCommaDot s)

/-- The importer's `normalizeString` on the `string | null` domain: trim,
then map a blank result to null. (The `Date` branch never fires on staging
text cells.) -/
def normalizeString : DbVal → DbVal
  | none => none
  | some s => if jsTrim s = "" then none else some (jsTrim s)

/-- The importer's `normalizeDate` on the `string | null` domain,
parameterised by `jsDate`, a model of the implementation-defined
`new Date(string)` parse (`none` = invalid date). -/
def normalizeDate (jsDate : String → Option ℤ) : DbVal → Option ℤ
  | none => none
  | some s => if jsTrim s ≠ "" then jsDate s else none

/-! ## Slot extraction (`extractSaleItems`) -/

/-- One of the seven denormalized slots of a legacy sales/orders record:
the `codN`, `qtdeN`, `vlrN`, `totalN` columns for one index `N`. -/
structure SaleSlot where
  cod : DbVal
  qtde : DbVal
  vlr : DbVal
  total : DbVal
deriving DecidableEq

/-- A row of `stg_vendas` / `stg_pedidos`, fields in staging column order. -/
structure StgSaleRow where
  pedido : DbVal
  emissao : DbVal
  cod_vend : DbVal
  cod_cli : DbVal
  cod_fpg : DbVal
  sub_total : DbVal
  desconto : DbVal
  total_gera : DbVal
  cod1 : DbVal
  cod2 : DbVal
  cod3 : DbVal
  cod4 : DbVal
  cod5 : DbVal
  cod6 : DbVal
  cod7 : DbVal
  qtde1 : DbVal
  qtde2 : DbVal
  qtde3 : DbVal
  qtde4 : DbVal
  qtde5 : DbVal
  qtde6 : DbVal
  qtde7 : DbVal
  vlr1 : DbVal
  vlr2 : DbVal
  vlr3 : DbVal
  vlr4 : DbVal
  vlr5 : DbVal
  vlr6 : DbVal
  vlr7 : DbVal
  total1 : DbVal
  total2 : DbVal
  total3 : DbVal
  total4 : DbVal
  total5 : DbVal
  total6 : DbVal
  total7 : DbVal
deriving DecidableEq

/-- The slot of index `i` (1-based, as in the source's loop). -/
def StgSaleRow.slot (r : StgSaleRow) : ℕ → SaleSlot
  | 1 => ⟨r.cod1, r.qtde1, r.vlr1, r.total1⟩
  | 2 => ⟨r.cod2, r.qtde2, r.vlr2, r.total2⟩
  | 3 => ⟨r.cod3, r.qtde3, r.vlr3, r.total3⟩
  | 4 => ⟨r.cod4, r.qtde4, r.vlr4, r.total4⟩
  | 5 => ⟨r.cod5, r.qtde5, r.vlr5, r.total5⟩
  | 6 => ⟨r.cod6, r.qtde6, r.vlr6, r.total6⟩
  | 7 => ⟨r.cod7, r.qtde7, r.vlr7, r.total7⟩
  | _ => ⟨none, none, none, none⟩

/-- An item pushed by `extractSaleItems`. -/
structure SaleItem where
  cod : String
  quantity : ℚ
  price : ℚ
  total : ℚ
deriving DecidableEq

/-- The item `extractSaleItems` builds from one slot: trimmed product code,
and each numeric column normalised with `?? 0` defaulting. -/
def slotItem (s : SaleSlot) : SaleItem where
  cod := jsTrim (s.cod.getD "")
  quantity := (normalizeNumber s.qtde).getD 0
  price := (normalizeNumber s.vlr).getD 0
  total := (normalizeNumber s.total).getD 0

/-- The slot indices the source loop visits, in order. -/
def slotIndices : List ℕ := [1, 2, 3, 4, 5, 6, 7]

/-- The importer's `extractSaleItems`: visit slots 1..7 in order and push an
item for every slot whose product-code cell is truthy (non-null, non-empty). -/
def extractSaleItems (r : StgSaleRow) : List SaleItem :=
  slotIndices.foldr
    (fun i acc => if truthy (r.slot i).cod then slotItem (r.slot i) :: acc else acc) []

/-! ## Legacy-code keyed core tables and the upsert primitive

Each reference entity table (`product_group`, `product`, `customer`,
`seller`, `payment_term`) has a `legacy_code text unique` column and a
surrogate id. A table is a list of rows; the SQL
`insert ... on conflict (legacy_code) do update set <all payload columns>`
is modelled per source row: if some row already carries the key, its payload
is replaced (id kept), otherwise a fresh row is appended. -/

structure KRow (V : Type) where
  id : ℕ
  key : Option String
  val : V
deriving DecidableEq

/-- Whether some row of the table carries legacy code `k`. -/
def hasKey {V : Type} (t : List (KRow V)) (k : String) : Bool :=
  (t.map (fun r => r.key)).any (fun x => x == some k)

/-- One keyed upsert (`on conflict (legacy_code) do update`): replace the
payload of the conflicting row, or append a fresh row. Returns the table and
the next fresh id. -/
def upsert {V : Type} (t : List (KRow V)) (k : String) (v : V) (fresh : ℕ) :
    List (KRow V) × ℕ :=
  if hasKey t k then
    (t.map (fun r => if r.key == some k then { r with val := v } else r), fresh)
  else (t ++ [{ id := fresh, key := some k, val := v }], fresh + 1)

/-- A declarative `insert ... select ... on conflict do update` statement,
processed source row by source row. -/
def upsertMany {V : Type} : List (KRow V) → ℕ → List (String × V) → List (KRow V) × ℕ
  | t, fresh, [] => (t, fresh)
  | t, fresh, kv :: rest =>
    upsertMany (upsert t kv.1 kv.2 fresh).1 (upsert t kv.1 kv.2 fresh).2 rest



/-! ## Staging row shapes (one structure per staging table, columns in
`STAGING_CONFIG` order) -/

structure StgGrupoRow where
  cod_grup : DbVal
  nome : DbVal
deriving DecidableEq

structure StgProdutoRow where
  cod_prod : DbVal
  nome_prod : DbVal
  cod_barra : DbVal
  referencia : DbVal
  cod_grup : DbVal
  esto_min : DbVal
  avista : DbVal
  preco_base : DbVal
deriving DecidableEq

structure StgClientesRow where
  codigo : DbVal
  nome : DbVal
  cpf : DbVal
  endereco : DbVal
  cidade : DbVal
  uf : DbVal
  cep : DbVal
  fone : DbVal
  status : DbVal
  obs : DbVal
deriving DecidableEq

structure StgVendedorRow where
  codigo : DbVal
  nome : DbVal
deriving DecidableEq

structure StgFormaPgRow where
  cod_fpg : DbVal
  forma : DbVal
deriving DecidableEq

structure StgPagamentRow where
  cod_cli : DbVal
  valor_doc : DbVal
  vlr_pago : DbVal
  restante : DbVal
  pagamento : DbVal
deriving DecidableEq

structure StgMovEstRow where
  tip_mov : DbVal
  data : DbVal
  cod_prod : DbVal
  qtde : DbVal
  valor : DbVal
  total : DbVal
  nf : DbVal
deriving DecidableEq

/-- The nine staging tables, as typed row lists. -/
structure Staging where
  stg_grupo : List StgGrupoRow
  stg_produto : List StgProdutoRow
  stg_clientes : List StgClientesRow
  stg_vendedor : List StgVendedorRow
  stg_forma_pg : List StgFormaPgRow
  stg_vendas : List StgSaleRow
  stg_pedidos : List StgSaleRow
  stg_pagament : List StgPagamentRow
  stg_mov_est : List StgMovEstRow
deriving DecidableEq

/-! ## SQL expression helpers used by the migration statements -/

/-- Postgres `trim(s)`: strip space characters from both ends. -/
def sqlTrim (s : String) : String :=
  String.mk (((s.data.dropWhile (fun c => c = ' ')).reverse.dropWhile
    (fun c => c = ' ')).reverse)

/-- Postgres `nullif(x, '')`. -/
def nullifEmpty : DbVal → DbVal
  | none => none
  | some s => if s = "" then none else some s

/-- Postgres `coalesce(a, b)`. -/
def coalesce (a b : DbVal) : DbVal :=
  match a with
  | some x => some x
  | none => b

/-- Postgres `trim` mapped over a nullable text value. -/
def sqlTrimOpt : DbVal → DbVal
  | none => none
  | some s => some (sqlTrim s)

/-- Model of the `::numeric` cast on nullable cleaned text: a numeric
literal parses to its exact rational value; non-numeric text is modelled as
NULL (a real cast error would abort the statement; no claim here inspects
these payload-only values). -/
def pgNumeric : DbVal → Option ℚ
  | none => none
  | some s => parseSignedDec (trimChars s.data)

/-! ## Core table payloads and the database state -/

structure PGData where
  name : DbVal
deriving DecidableEq

structure ProdData where
  name : DbVal
  barcode : DbVal
  reference : DbVal
  min_stock : Option ℚ
  price_cash : Option ℚ
  price_base : Option ℚ
  group_id : Option ℕ
deriving DecidableEq

structure CustData where
  name : DbVal
  cpf : DbVal
  address : DbVal
  city : DbVal
  uf : DbVal
  cep : DbVal
  phone : DbVal
  status : String
  notes : DbVal
deriving DecidableEq

structure SellerData where
  name : DbVal
deriving DecidableEq

structure PtData where
  name : DbVal
deriving DecidableEq

/-- Payload of a sale row. `emission_date` is `date not null` in the DDL;
this total model carries it as an option and does not enforce the
constraint — theorems about the header-insert path carry an explicit
parseable-date hypothesis instead (see `saleDateOk` below). -/
structure SaleData where
  emission_date : Option ℤ
  order_number : DbVal
  seller_id : Option ℕ
  customer_id : Option ℕ
  payment_term_id : Option ℕ
  subtotal : Option ℚ
  discount : Option ℚ
  total : Option ℚ
  status : String
deriving DecidableEq

/-- A `sale` row: compound unique key `(source, source_key)`, nullable. -/
structure SaleRow where
  id : ℕ
  source : Option String
  source_key : Option String
  data : SaleData
deriving DecidableEq

structure SaleItemRow where
  sale_id : ℕ
  product_id : ℕ
  quantity : ℚ
  unit_price : ℚ
  total : ℚ
deriving DecidableEq

structure PaymentRow where
  customer_id : ℕ
  payment_date : Option ℤ
  document_value : Option ℚ
  paid_value : Option ℚ
  remaining : Option ℚ
deriving DecidableEq

/-- A `stock_movement` row (`movement_type` models the `type` column). -/
structure StockRow where
  product_id : ℕ
  date : Option ℤ
  movement_type : DbVal
  quantity : Option ℚ
  unit_value : Option ℚ
  total : Option ℚ
  note_number : DbVal
deriving DecidableEq

/-- The core tables touched by the importer, plus a fresh-id counter
standing for uuid generation. -/
structure Db where
  product_group : List (KRow PGData)
  product : List (KRow ProdData)
  customer : List (KRow CustData)
  seller : List (KRow SellerData)
  payment_term : List (KRow PtData)
  sale : List SaleRow
  sale_item : List SaleItemRow
  customer_payment : List PaymentRow
  stock_movement : List StockRow
  nextId : ℕ
deriving DecidableEq

/-! ## Master data migration (`migrateMasterData`) -/

/-- SQL `join ... on x.legacy_code = <key>`: id of the row carrying the key
(unique in the schema). -/
def findByKey {V : Type} (t : List (KRow V)) (k : String) : Option ℕ :=
  (t.find? (fun r => r.key == some k)).map (fun r => r.id)

/-- Source rows of the product_group upsert: staged rows with non-null
`cod_grup`, keyed by `trim(cod_grup)`, name
`coalesce(nullif(trim(nome), ''), trim(cod_grup))`. -/
def grupoKVs (stg : Staging) : List (String × PGData) :=
  (stg.stg_grupo.filter (fun r => r.cod_grup.isSome)).map (fun r =>
    (sqlTrim (r.cod_grup.getD ""),
     { name := coalesce (nullifEmpty (sqlTrimOpt r.nome)) (sqlTrimOpt r.cod_grup) }))

/-- Source rows of the product upsert; `group_id` resolves through the
`left join product_group pg on pg.legacy_code = trim(s.cod_grup)` against
the product_group table state after its own upsert. -/
def produtoKVs (stg : Staging) (pgTable : List (KRow PGData)) : List (String × ProdData) :=
  (stg.stg_produto.filter (fun r => r.cod_prod.isSome)).map (fun r =>
    (sqlTrim (r.cod_prod.getD ""),
     { name := r.nome_prod
       barcode := nullifEmpty (sqlTrimOpt r.cod_barra)
       reference := nullifEmpty (sqlTrimOpt r.referencia)
       min_stock := pgNumeric (nullifEmpty (sqlTrimOpt r.esto_min))
       price_cash := pgNumeric (nullifEmpty (sqlTrimOpt r.avista))
       price_base := pgNumeric (nullifEmpty (sqlTrimOpt r.preco_base))
       group_id := match r.cod_grup with
         | none => none
         | some c => findByKey pgTable (sqlTrim c) }))

/-- Source rows of the customer upsert, including the status defaulting
`case when trim(status) = '' or status is null then 'active' else
lower(trim(status)) end`. -/
def clientesKVs (stg : Staging) : List (String × CustData) :=
  (stg.stg_clientes.filter (fun r => r.codigo.isSome)).map (fun r =>
    (sqlTrim (r.codigo.getD ""),
     { name := r.nome
       cpf := nullifEmpty (sqlTrimOpt r.cpf)
       address := nullifEmpty (sqlTrimOpt r.endereco)
       city := nullifEmpty (sqlTrimOpt r.cidade)
       uf := nullifEmpty (sqlTrimOpt r.uf)
       cep := nullifEmpty (sqlTrimOpt r.cep)
       phone := nullifEmpty (sqlTrimOpt r.fone)
       status := match r.status with
         | none => "active"
         | some s => if sqlTrim s = "" then "active" else (sqlTrim s).toLower
       notes := nullifEmpty (sqlTrimOpt r.obs) }))

/-- Source rows of the seller upsert. -/
def vendedorKVs (stg : Staging) : List (String × SellerData) :=
  (stg.stg_vendedor.filter (fun r => r.codigo.isSome)).map (fun r =>
    (sqlTrim (r.codigo.getD ""), { name := r.nome }))

/-- Source rows of the payment_term upsert. -/
def formaPgKVs (stg : Staging) : List (String × PtData) :=
  (stg.stg_forma_pg.filter (fun r => r.cod_fpg.isSome)).map (fun r =>
    (sqlTrim (r.cod_fpg.getD ""), { name := r.forma }))

/-- `migrateMasterData`: the five declarative upserts, in source statement
order (groups, products, customers, sellers, payment terms). -/
def migrateMasterData (stg : Staging) (db : Db) : Db :=
  let pg := upsertMany db.product_group db.nextId (grupoKVs stg)
  let db1 := { db with product_group := pg.1, nextId := pg.2 }
  let pr := upsertMany db1.product db1.nextId (produtoKVs stg db1.product_group)
  let db2 := { db1 with product := pr.1, nextId := pr.2 }
  let cu := upsertMany db2.customer db2.nextId (clientesKVs stg)
  let db3 := { db2 with customer := cu.1, nextId := cu.2 }
  let se := upsertMany db3.seller db3.nextId (vendedorKVs stg)
  let db4 := { db3 with seller := se.1, nextId := se.2 }
  let pt := upsertMany db4.payment_term db4.nextId (formaPgKVs stg)
  { db4 with payment_term := pt.1, nextId := pt.2 }

/-! ## Transactional migration (`migrateSales`) -/

/-- JS `Map.set` on an association list: later bindings win. -/
def mapSet (m : List (String × ℕ)) (k : String) (v : ℕ) : List (String × ℕ) :=
  (k, v) :: m.filter (fun p => !(p.1 == k))

/-- JS `Map.get`, `undefined` as `none`. -/
def mapGet (m : List (String × ℕ)) (k : String) : Option ℕ :=
  (m.find? (fun p => p.1 == k)).map (fun p => p.2)

/-- `buildLegacyMap(table)`: rows with non-null legacy code, JS-falsy (empty)
codes skipped, `Map.set` keyed by the trimmed code so later rows override. -/
def buildLegacyMap {V : Type} (t : List (KRow V)) : List (String × ℕ) :=
  t.foldl (fun m r =>
    match r.key with
    | none => m
    | some k => if k = "" then m else mapSet m (jsTrim k) r.id) []

/-- The four lookup maps `migrateSales` builds before its row loops. -/
structure SaleMaps where
  sellerMap : List (String × ℕ)
  customerMap : List (String × ℕ)
  paymentTermMap : List (String × ℕ)
  productMap : List (String × ℕ)

/-- A ternary `row.x ? map.get(String(row.x).trim()) : null` lookup. -/
def resolveRef (m : List (String × ℕ)) (v : DbVal) : Option ℕ :=
  if truthy v then mapGet m (jsTrim (v.getD "")) else none

/-- The four lookup maps, built from the current reference tables exactly as
at the top of `migrateSales`. -/
def salesMapsOf (db : Db) : SaleMaps := {
  sellerMap := buildLegacyMap db.seller
  customerMap := buildLegacyMap db.customer
  paymentTermMap := buildLegacyMap db.payment_term
  productMap := buildLegacyMap db.product }

/-- The running totals `migrateSales` accumulates. -/
structure SaleSummary where
  sales : ℕ
  saleItems : ℕ
  orders : ℕ
  orderItems : ℕ
  mismatches : List String
deriving DecidableEq

/-- The trimmed order key of a staged transactional row (rows with a falsy
`pedido` are skipped before this is used). -/
def txnKey (r : StgSaleRow) : String := jsTrim (r.pedido.getD "")

/-- The source label of the two transactional passes. -/
def srcLabel (isOrder : Bool) : String := if isOrder then "PEDIDOS" else "VENDAS"

/-- Whether the sale-header insert built from `r` satisfies the
`emission_date date not null` constraint of the sale DDL: `normalizeDate`
yields a date. The embedding's sale upsert is total, so theorems about the
header path restrict to stagings where every processed row passes this
check; on a row that fails it, the real insert (and its on-conflict update,
which also writes `emission_date`) raises a not-null violation and aborts
the job instead. -/
def saleDateOk (jsDate : String → Option ℤ) (r : StgSaleRow) : Bool :=
  (normalizeDate jsDate r.emissao).isSome

/-- Predicate for the `(source, source_key)` conflict target: a stored row
conflicts when both columns are non-null and equal to the inserted pair. -/
def saleKeyMatches (src key : String) (r : SaleRow) : Bool :=
  r.source == some src && r.source_key == some key

/-- `insert into sale ... on conflict (source, source_key) do update ...
returning id`. `updStatus` distinguishes the two statement shapes: the
VENDAS statement does not list `status`, so a fresh row gets the column
default (carried in `d`) while a conflicting row keeps its old status; the
PEDIDOS statement both inserts and updates `status`. Returns the table, the
returned id and the next fresh id. The model is total: it does not raise
the `emission_date` not-null violation the real statement raises when
`normalizeDate` returns null — `saleDateOk` names the side condition under
which model and program agree. -/
def saleUpsert (t : List SaleRow) (src key : String) (d : SaleData) (updStatus : Bool)
    (fresh : ℕ) : List SaleRow × ℕ × ℕ :=
  match t.find? (saleKeyMatches src key) with
  | some r0 =>
    (t.map (fun r => if saleKeyMatches src key r then
        { r with data := if updStatus then d else { d with status := r.data.status } } else r),
     r0.id, fresh)
  | none =>
    (t ++ [{ id := fresh, source := some src, source_key := some key, data := d }],
     fresh, fresh + 1)

/-- The Sale payload built for one staged transactional row. -/
def txnSaleData (jsDate : String → Option ℤ) (m : SaleMaps) (isOrder : Bool)
    (key : String) (r : StgSaleRow) : SaleData :=
  { emission_date := normalizeDate jsDate r.emissao
    order_number := some key
    seller_id := resolveRef m.sellerMap r.cod_vend
    customer_id := resolveRef m.customerMap r.cod_cli
    payment_term_id := resolveRef m.paymentTermMap r.cod_fpg
    subtotal := normalizeNumber r.sub_total
    discount := normalizeNumber r.desconto
    total := normalizeNumber r.total_gera
    status := if isOrder then "draft" else "completed" }

/-- One iteration of the item loop inside `migrateSales`: resolve the product
by legacy code; a miss records a mismatch naming the row key and the code,
a hit inserts a sale_item row and bumps the item counter. -/
def itemStep (m : SaleMaps) (isOrder : Bool) (saleId : ℕ) (key : String)
    (a : Db × SaleSummary) (item : SaleItem) : Db × SaleSummary :=
  match mapGet m.productMap item.cod with
  | none =>
    (a.1, { a.2 with mismatches := a.2.mismatches ++
      [(if isOrder then "Order " else "Sale ") ++ key ++ ": product " ++
        item.cod ++ " not found"] })
  | some pid =>
    ({ a.1 with sale_item := a.1.sale_item ++
        [{ sale_id := saleId, product_id := pid, quantity := item.quantity,
           unit_price := item.price, total := item.total }] },
     if isOrder then { a.2 with orderItems := a.2.orderItems + 1 }
     else { a.2 with saleItems := a.2.saleItems + 1 })

/-- One iteration of the per-row loop of `migrateSales` (shared shape of the
stg_vendas and stg_pedidos passes): skip rows with a falsy order key, upsert
the Sale header, delete the header's existing items, process the extracted
items, then bump the row counter. -/
def migrateTxnRow (jsDate : String → Option ℤ) (m : SaleMaps) (isOrder : Bool)
    (acc : Db × SaleSummary) (r : StgSaleRow) : Db × SaleSummary :=
  if truthy r.pedido then
    let key := txnKey r
    let src := srcLabel isOrder
    let up := saleUpsert acc.1.sale src key (txnSaleData jsDate m isOrder key r) isOrder
      acc.1.nextId
    let saleId := (up.2).1
    let db1 := { acc.1 with
      sale := up.1
      nextId := (up.2).2
      sale_item := acc.1.sale_item.filter (fun it => !(it.sale_id == saleId)) }
    let res := (extractSaleItems r).foldl (itemStep m isOrder saleId key) (db1, acc.2)
    (res.1, if isOrder then { res.2 with orders := res.2.orders + 1 }
            else { res.2 with sales := res.2.sales + 1 })
  else acc

/-- `delete from sale where source in ('VENDAS', 'PEDIDOS')`; the sale_item
foreign key is `on delete cascade`, so items of the deleted sales go too. -/
def overwriteDeleteSales (db : Db) : Db :=
  let deleted := db.sale.filter
    (fun r => r.source == some "VENDAS" || r.source == some "PEDIDOS")
  { db with
    sale := db.sale.filter
      (fun r => !(r.source == some "VENDAS" || r.source == some "PEDIDOS")),
    sale_item := db.sale_item.filter
      (fun it => !((deleted.map (fun r => r.id)).contains it.sale_id)) }

/-- `migrateSales`: optional overwrite delete, lookup-map construction from
the current reference tables, then the stg_vendas pass (source 'VENDAS') and
the stg_pedidos pass (source 'PEDIDOS'). -/
def migrateSales (jsDate : String → Option ℤ) (overwrite : Bool) (stg : Staging)
    (db0 : Db) : Db × SaleSummary :=
  let db := if overwrite then overwriteDeleteSales db0 else db0
  let m := salesMapsOf db
  let s1 := stg.stg_vendas.foldl (migrateTxnRow jsDate m false)
      (db, { sales := 0, saleItems := 0, orders := 0, orderItems := 0, mismatches := [] })
  stg.stg_pedidos.foldl (migrateTxnRow jsDate m true) s1

/-! ## Auxiliary migrations (`migrateCustomerPayments`, `migrateStockMovements`) -/

/-- `migrateCustomerPayments`: row-by-row; skip falsy customer codes; look
the customer up by exact legacy code (`legacy_code = $1 limit 1`); a hit
inserts one customer_payment row — with no conflict key of any kind — and
counts it; a miss just skips the row. -/
def paymentStep (jsDate : String → Option ℤ) (acc : Db × ℕ) (r : StgPagamentRow) :
    Db × ℕ :=
  if truthy r.cod_cli then
    match acc.1.customer.find? (fun c => c.key == some (jsTrim (r.cod_cli.getD ""))) with
    | none => acc
    | some c =>
      ({ acc.1 with customer_payment := acc.1.customer_payment ++
          [{ customer_id := c.id, payment_date := normalizeDate jsDate r.pagamento,
             document_value := normalizeNumber r.valor_doc,
             paid_value := normalizeNumber r.vlr_pago,
             remaining := normalizeNumber r.restante }] }, acc.2 + 1)
  else acc

def migrateCustomerPayments (jsDate : String → Option ℤ) (stg : Staging) (db : Db) :
    Db × ℕ :=
  stg.stg_pagament.foldl (paymentStep jsDate) (db, 0)

/-- One iteration of the stock-movement loop. The DDL's not-null and
`type in ('E','S')` checks on stock_movement are not enforced by this total
model; the duplication result for the auxiliary migrators rests on
customer_payment, whose columns are all nullable. -/
def stockStep (jsDate : String → Option ℤ) (productMap : List (String × ℕ))
    (acc : Db × ℕ) (r : StgMovEstRow) : Db × ℕ :=
  if truthy r.cod_prod then
    match mapGet productMap (jsTrim (r.cod_prod.getD "")) with
    | none => acc
    | some pid =>
      ({ acc.1 with stock_movement := acc.1.stock_movement ++
          [{ product_id := pid, date := normalizeDate jsDate r.data,
             movement_type := normalizeString r.tip_mov,
             quantity := normalizeNumber r.qtde,
             unit_value := normalizeNumber r.valor,
             total := normalizeNumber r.total,
             note_number := normalizeString r.nf }] }, acc.2 + 1)
  else acc

/-- `migrateStockMovements`: like payments, resolving the product through
`buildLegacyMap('product')` built once before the loop; inserts are plain
(keyless) as well. -/
def migrateStockMovements (jsDate : String → Option ℤ) (stg : Staging) (db : Db) :
    Db × ℕ :=
  let productMap := buildLegacyMap db.product
  stg.stg_mov_est.foldl (stockStep jsDate productMap) (db, 0)

/-- The payment row `paymentStep` inserts for one staged row against a fixed
customer table, or `none` when the row is skipped. -/
def paymentRowOf (jsDate : String → Option ℤ) (cust : List (KRow CustData))
    (r : StgPagamentRow) : Option PaymentRow :=
  if truthy r.cod_cli then
    match cust.find? (fun c => c.key == some (jsTrim (r.cod_cli.getD ""))) with
    | none => none
    | some c =>
      some { customer_id := c.id, payment_date := normalizeDate jsDate r.pagamento,
             document_value := normalizeNumber r.valor_doc,
             paid_value := normalizeNumber r.vlr_pago,
             remaining := normalizeNumber r.restante }
  else none

/-- The stock row `stockStep` inserts for one staged row, or `none`. -/
def stockRowOf (jsDate : String → Option ℤ) (productMap : List (String × ℕ))
    (r : StgMovEstRow) : Option StockRow :=
  if truthy r.cod_prod then
    match mapGet productMap (jsTrim (r.cod_prod.getD "")) with
    | none => none
    | some pid =>
      some { product_id := pid, date := normalizeDate jsDate r.data,
             movement_type := normalizeString r.tip_mov,
             quantity := normalizeNumber r.qtde,
             unit_value := normalizeNumber r.valor,
             total := normalizeNumber r.total,
             note_number := normalizeString r.nf }
  else none

/-- The sale_item row inserted for one extracted item under a fixed product
map and sale id, or `none` when the product code does not resolve. -/
def resolvedItemOf (m : SaleMaps) (saleId : ℕ) (it : SaleItem) : Option SaleItemRow :=
  (mapGet m.productMap it.cod).map (fun pid =>
    { sale_id := saleId, product_id := pid, quantity := it.quantity,
      unit_price := it.price, total := it.total })

/-- The mismatch string recorded for one extracted item, or `none` when the
product code resolves. -/
def itemMismatchOf (m : SaleMaps) (isOrder : Bool) (key : String) (it : SaleItem) :
    Option String :=
  match mapGet m.productMap it.cod with
  | none => some ((if isOrder then "Order " else "Sale ") ++ key ++ ": product " ++
      it.cod ++ " not found")
  | some _ => none

/-- Whether the sale table holds a row with the given `(source, source_key)`. -/
def salePresent (t : List SaleRow) (src key : String) : Bool :=
  t.any (saleKeyMatches src key)

/-- The five legacy-code-keyed reference tables, bundled for frame lemmas. -/
def refFrame (db : Db) :
    List (KRow PGData) × List (KRow ProdData) × List (KRow CustData) ×
      List (KRow SellerData) × List (KRow PtData) :=
  (db.product_group, db.product, db.customer, db.seller, db.payment_term)

/-- The four data-migration stages of one job run, in `runImport` order, on
already-staged data, with `overwrite = false`. -/
def corePass (jsDate : String → Option ℤ) (stg : Staging) (db : Db) : Db :=
  let db1 := migrateMasterData stg db
  let db2 := (migrateSales jsDate false stg db1).1
  let db3 := (migrateCustomerPayments jsDate stg db2).1
  (migrateStockMovements jsDate stg db3).1


/-! ## The staging loader and the job pipeline -/

structure StagingColumn where
  name : String
  field : String
deriving DecidableEq

structure StagingConfig where
  file : String
  table : String
  columns : List StagingColumn
deriving DecidableEq

/-- The five legacy files whose absence aborts a run. -/
def REQUIRED_FILES : List String :=
  ["PRODUTO.DBF", "GRUPO.DBF", "CLIENTES.DBF", "VENDEDOR.DBF", "VENDAS.DBF"]

/-- The 36 columns shared verbatim by the VENDAS.DBF and PEDIDOS.DBF entries
of `STAGING_CONFIG` (the source lists them twice, identically). -/
def txnColumns : List StagingColumn :=
  [⟨"pedido", "PEDIDO"⟩, ⟨"emissao", "EMISSAO"⟩, ⟨"cod_vend", "COD_VEND"⟩,
   ⟨"cod_cli", "COD_CLI"⟩, ⟨"cod_fpg", "COD_FPG"⟩, ⟨"sub_total", "SUB_TOTAL"⟩,
   ⟨"desconto", "DESCONTO"⟩, ⟨"total_gera", "TOTAL_GERA"⟩,
   ⟨"cod1", "COD1"⟩, ⟨"cod2", "COD2"⟩, ⟨"cod3", "COD3"⟩, ⟨"cod4", "COD4"⟩,
   ⟨"cod5", "COD5"⟩, ⟨"cod6", "COD6"⟩, ⟨"cod7", "COD7"⟩,
   ⟨"qtde1", "QTDE1"⟩, ⟨"qtde2", "QTDE2"⟩, ⟨"qtde3", "QTDE3"⟩, ⟨"qtde4", "QTDE4"⟩,
   ⟨"qtde5", "QTDE5"⟩, ⟨"qtde6", "QTDE6"⟩, ⟨"qtde7", "QTDE7"⟩,
   ⟨"vlr1", "VLR1"⟩, ⟨"vlr2", "VLR2"⟩, ⟨"vlr3", "VLR3"⟩, ⟨"vlr4", "VLR4"⟩,
   ⟨"vlr5", "VLR5"⟩, ⟨"vlr6", "VLR6"⟩, ⟨"vlr7", "VLR7"⟩,
   ⟨"total1", "TOTAL1"⟩, ⟨"total2", "TOTAL2"⟩, ⟨"total3", "TOTAL3"⟩,
   ⟨"total4", "TOTAL4"⟩, ⟨"total5", "TOTAL5"⟩, ⟨"total6", "TOTAL6"⟩,
   ⟨"total7", "TOTAL7"⟩]

/-- The configured staging sources, in source order. -/
def STAGING_CONFIG : List StagingConfig :=
  [{ file := "GRUPO.DBF", table := "stg_grupo",
     columns := [⟨"cod_grup", "COD_GRUP"⟩, ⟨"nome", "NOME"⟩] },
   { file := "PRODUTO.DBF", table := "stg_produto",
     columns := [⟨"cod_prod", "COD_PROD"⟩, ⟨"nome_prod", "NOME_PROD"⟩,
       ⟨"cod_barra", "COD_BARRA"⟩, ⟨"referencia", "REFERENCIA"⟩,
       ⟨"cod_grup", "COD_GRUP"⟩, ⟨"esto_min", "ESTO_MIN"⟩,
       ⟨"avista", "AVISTA"⟩, ⟨"preco_base", "PRECO_BASE"⟩] },
   { file := "CLIENTES.DBF", table := "stg_clientes",
     columns := [⟨"codigo", "CODIGO"⟩, ⟨"nome", "NOME"⟩, ⟨"cpf", "CPF"⟩,
       ⟨"endereco", "ENDERECO"⟩, ⟨"cidade", "CIDADE"⟩, ⟨"uf", "UF"⟩,
       ⟨"cep", "CEP"⟩, ⟨"fone", "FONE"⟩, ⟨"status", "STATUS"⟩, ⟨"obs", "OBS"⟩] },
   { file := "VENDEDOR.DBF", table := "stg_vendedor",
     columns := [⟨"codigo", "CODIGO"⟩, ⟨"nome", "NOME"⟩] },
   { file := "FORMA_PG.DBF", table := "stg_forma_pg",
     columns := [⟨"cod_fpg", "COD_FPG"⟩, ⟨"forma", "FORMA"⟩] },
   { file := "VENDAS.DBF", table := "stg_vendas", columns := txnColumns },
   { file := "PEDIDOS.DBF", table := "stg_pedidos", columns := txnColumns },
   { file := "PAGAMENT.DBF", table := "stg_pagament",
     columns := [⟨"cod_cli", "COD_CLI"⟩, ⟨"valor_doc", "VALOR_DOC"⟩,
       ⟨"vlr_pago", "VLR_PAGO"⟩, ⟨"restante", "RESTANTE"⟩,
       ⟨"pagamento", "PAGAMENTO"⟩] },
   { file := "MOV_EST.DBF", table := "stg_mov_est",
     columns := [⟨"tip_mov", "TIP_MOV"⟩, ⟨"data", "DATA"⟩, ⟨"cod_prod", "COD_PROD"⟩,
       ⟨"qtde", "QTDE"⟩, ⟨"valor", "VALOR"⟩, ⟨"total", "TOTAL"⟩, ⟨"nf", "NF"⟩] }]

/-- A value of one DBF record field, as the dbffile decoder delivers it. -/
inductive DbfVal
  | vnull
  | vstr (s : String)
  | vnum (q : ℚ)
  | vdate (d : ℤ)
  | vbool (b : Bool)
deriving DecidableEq

/-- One decoded DBF record: field name to value. -/
structure DbfRecord where
  fields : String → DbfVal

/-- The normalized upload `prepareLegacyFiles` produces: upper-cased file
names present, and each present file's decoded records. -/
structure Env where
  files : List String
  records : String → List DbfRecord

inductive LogLevel
  | info
  | warn
  | error
deriving DecidableEq

/-- Observable side effects of a run, recorded in order. -/
inductive Ev
  | statusUpdate (status : String)
  | logEntry (level : LogLevel) (message : String)
  | ensureSchemaEv
  | truncateTable (table : String)
  | createStagingTable (table : String)
  | insertStagingRow (table : String) (values : List DbVal)
deriving DecidableEq

/-- The staging store as the generic loader writes it: table name to rows of
column values, in configured column order. -/
abbrev StagingStore := List (String × List (List DbVal))

def storeGet (st : StagingStore) (table : String) : List (List DbVal) :=
  ((st.find? (fun p => p.1 == table)).map (fun p => p.2)).getD []

def storeSet (st : StagingStore) (table : String) (rows : List (List DbVal)) :
    StagingStore :=
  (table, rows) :: st.filter (fun p => !(p.1 == table))

/-- Pipeline state threaded through a run: core tables, staging store, and
the event trace. -/
structure St where
  db : Db
  store : StagingStore
  evs : List Ev

def emit (s : St) (e : Ev) : St := { s with evs := s.evs ++ [e] }

/-- The text coercion `loadDbfIntoStaging` applies to one record value:
dates to ISO strings, null to SQL NULL, everything else stringified and
trimmed. `numToString` and `dateIso` model the implementation-defined JS
`String(number)` and `Date.toISOString` conversions. -/
def dbfCellToText (numToString : ℚ → String) (dateIso : ℤ → String) :
    DbfVal → DbVal
  | .vnull => none
  | .vdate d => some (dateIso d)
  | .vstr s => some (jsTrim s)
  | .vnum q => some (jsTrim (numToString q))
  | .vbool b => some (jsTrim (if b then "true" else "false"))

/-- `ensureStagingTable`: create-if-absent (all-text columns) plus truncate;
on the store the table simply becomes empty. -/
def ensureStagingTable (cfg : StagingConfig) (s : St) : St :=
  { s with
    store := storeSet s.store cfg.table []
    evs := s.evs ++ [.createStagingTable cfg.table, .truncateTable cfg.table] }

/-- `loadDbfIntoStaging`: an absent file yields only a warning log entry and
count 0 (no table creation, truncation or insert); a present file
(re)creates and truncates its staging table, then inserts every decoded
record's configured columns (the source's batches of 500 are invisible in
the final state). Returns the inserted row count. -/
def loadDbfIntoStaging (numToString : ℚ → String) (dateIso : ℤ → String)
    (cfg : StagingConfig) (env : Env) (s : St) : St × ℕ :=
  if env.files.contains cfg.file then
    let s1 := ensureStagingTable cfg s
    let rows := (env.records cfg.file).map (fun rec =>
      cfg.columns.map (fun c => dbfCellToText numToString dateIso (rec.fields c.field)))
    (rows.foldl (fun s2 row =>
      { s2 with
        store := storeSet s2.store cfg.table (storeGet s2.store cfg.table ++ [row])
        evs := s2.evs ++ [.insertStagingRow cfg.table row] }) s1,
     rows.length)
  else
    (emit s (.logEntry .warn ("Optional file " ++ cfg.file ++ " not provided; skipping.")),
     0)

/-- The core-table truncation order of `truncateCoreTables`. -/
def CORE_TABLES : List String :=
  ["sale_item", "sale", "customer_payment", "stock_movement", "product",
   "product_group", "customer", "seller", "payment_term"]

/-- `truncateCoreTables`: truncates all nine core tables. -/
def truncateCoreTables (s : St) : St :=
  { s with
    db := { s.db with
      product_group := []
      product := []
      customer := []
      seller := []
      payment_term := []
      sale := []
      sale_item := []
      customer_payment := []
      stock_movement := [] }
    evs := s.evs ++ CORE_TABLES.map Ev.truncateTable }

/-- `truncateStagingTables`: truncate every configured staging table. -/
def truncateStagingTables (s : St) : St :=
  STAGING_CONFIG.foldl (fun s2 cfg =>
    { s2 with
      store := storeSet s2.store cfg.table []
      evs := s2.evs ++ [Ev.truncateTable cfg.table] }) s

/-- Column access by position in a stored staging row. -/
def colAt (row : List DbVal) (i : ℕ) : DbVal := row.getD i none

def toStgGrupoRow (r : List DbVal) : StgGrupoRow := ⟨colAt r 0, colAt r 1⟩

def toStgProdutoRow (r : List DbVal) : StgProdutoRow :=
  ⟨colAt r 0, colAt r 1, colAt r 2, colAt r 3, colAt r 4, colAt r 5, colAt r 6,
   colAt r 7⟩

def toStgClientesRow (r : List DbVal) : StgClientesRow :=
  ⟨colAt r 0, colAt r 1, colAt r 2, colAt r 3, colAt r 4, colAt r 5, colAt r 6,
   colAt r 7, colAt r 8, colAt r 9⟩

def toStgVendedorRow (r : List DbVal) : StgVendedorRow := ⟨colAt r 0, colAt r 1⟩

def toStgFormaPgRow (r : List DbVal) : StgFormaPgRow := ⟨colAt r 0, colAt r 1⟩

def toStgSaleRow (r : List DbVal) : StgSaleRow :=
  ⟨colAt r 0, colAt r 1, colAt r 2, colAt r 3, colAt r 4, colAt r 5, colAt r 6,
   colAt r 7, colAt r 8, colAt r 9, colAt r 10, colAt r 11, colAt r 12, colAt r 13,
   colAt r 14, colAt r 15, colAt r 16, colAt r 17, colAt r 18, colAt r 19,
   colAt r 20, colAt r 21, colAt r 22, colAt r 23, colAt r 24, colAt r 25,
   colAt r 26, colAt r 27, colAt r 28, colAt r 29, colAt r 30, colAt r 31,
   colAt r 32, colAt r 33, colAt r 34, colAt r 35⟩

def toStgPagamentRow (r : List DbVal) : StgPagamentRow :=
  ⟨colAt r 0, colAt r 1, colAt r 2, colAt r 3, colAt r 4⟩

def toStgMovEstRow (r : List DbVal) : StgMovEstRow :=
  ⟨colAt r 0, colAt r 1, colAt r 2, colAt r 3, colAt r 4, colAt r 5, colAt r 6⟩

/-- Typed view of the staging store, as the migration SQL reads it. -/
def stagingOfStore (st : StagingStore) : Staging :=
  { stg_grupo := (storeGet st "stg_grupo").map toStgGrupoRow
    stg_produto := (storeGet st "stg_produto").map toStgProdutoRow
    stg_clientes := (storeGet st "stg_clientes").map toStgClientesRow
    stg_vendedor := (storeGet st "stg_vendedor").map toStgVendedorRow
    stg_forma_pg := (storeGet st "stg_forma_pg").map toStgFormaPgRow
    stg_vendas := (storeGet st "stg_vendas").map toStgSaleRow
    stg_pedidos := (storeGet st "stg_pedidos").map toStgSaleRow
    stg_pagament := (storeGet st "stg_pagament").map toStgPagamentRow
    stg_mov_est := (storeGet st "stg_mov_est").map toStgMovEstRow }

/-- One iteration of the staging-load loop of `runImport`: the stage
boundary log entry followed by `loadDbfIntoStaging` (whose per-table count
feeds only the summary). -/
def loadStage (numToString : ℚ → String) (dateIso : ℤ → String) (env : Env)
    (s2 : St) (cfg : StagingConfig) : St :=
  (loadDbfIntoStaging numToString dateIso cfg env
    (emit s2 (.logEntry .info
      ("Loading " ++ cfg.file ++ " into staging table " ++ cfg.table)))).1

/-- The data-migration half of `runImport`: the four migrations over the
staged data with their stage logs, the report log (the reconciliation
report only reads data and writes a session file, so it contributes no
database event), the completion status update and the final log entry. -/
def migrateAndFinish (jsDate : String → Option ℤ) (overwrite : Bool) (s0 : St) : St :=
  let stg := stagingOfStore s0.store
  let s := emit s0 (.logEntry .info
    "Migrating master data (products, customers, sellers, payment terms)")
  let s := { s with db := migrateMasterData stg s.db }
  let s := emit s (.logEntry .info "Migrating sales and sale items")
  let s := { s with db := (migrateSales jsDate overwrite stg s.db).1 }
  let s := emit s (.logEntry .info "Migrating customer payments")
  let s := { s with db := (migrateCustomerPayments jsDate stg s.db).1 }
  let s := emit s (.logEntry .info "Migrating stock movements")
  let s := { s with db := (migrateStockMovements jsDate stg s.db).1 }
  let s := emit s (.logEntry .info "Generating reconciliation report")
  let s := emit s (.statusUpdate "completed")
  emit s (.logEntry .info "Legacy data import completed successfully")

/-- `runImport`: status to running, prepare files (`env` is their normalized
result), fail fast when a required file is missing, ensure schema, optional
core truncation under the overwrite flag, staging truncation, staging
loads, then the data migrations and the completion status update. -/
def runImport (jsDate : String → Option ℤ) (numToString : ℚ → String)
    (dateIso : ℤ → String) (env : Env) (overwrite : Bool) (s0 : St) :
    St × Except String Unit :=
  let s := emit (emit s0 (.statusUpdate "running"))
    (.logEntry .info "Preparing legacy files for import")
  match REQUIRED_FILES.find? (fun f => !(env.files.contains f)) with
  | some f => (s, .error ("Required legacy file " ++ f ++ " missing after extraction"))
  | none =>
    let s := emit s .ensureSchemaEv
    let s := if overwrite then
        truncateCoreTables (emit s (.logEntry .info "Clearing existing data before import"))
      else s
    let s := truncateStagingTables s
    let s := STAGING_CONFIG.foldl (loadStage numToString dateIso env) s
    (migrateAndFinish jsDate overwrite s, .ok ())

/-- One iteration of `processQueue`'s drain loop, for one job: run the
import; an exception is logged at error level and the job is marked failed
with the message persisted. -/
def processJob (jsDate : String → Option ℤ) (numToString : ℚ → String)
    (dateIso : ℤ → String) (env : Env) (overwrite : Bool) (s0 : St) : St :=
  match runImport jsDate numToString dateIso env overwrite s0 with
  | (s1, .ok _) => s1
  | (s1, .error msg) =>
    emit (emit s1 (.logEntry .error msg)) (.statusUpdate "failed")

/-- The job-status updates of an event trace, in order. -/
def statusTrace (evs : List Ev) : List String :=
  evs.filterMap (fun e => match e with
    | .statusUpdate st => some st
    | _ => none)

/-- Whether an event is a job-status update. -/
def isStatusEv : Ev → Bool
  | .statusUpdate _ => true
  | _ => false

/-- A persisted ImportJob row as the startup recovery sees it. -/
structure JobRow where
  id : ℕ
  status : String
  started_at : Option ℤ
deriving DecidableEq

/-- The startup recovery of `initializeLegacyImportWorker`:
`update system_legacy_import set status = 'queued', started_at = null where
status = 'running'`. -/
def recoverRunningJobs (jobs : List JobRow) : List JobRow :=
  jobs.map (fun j => if j.status == "running" then
    { j with status := "queued", started_at := none } else j)

/-- The jobs the startup path re-enqueues: those with status queued after
recovery (the `select ... where status = 'queued'` in creation order). -/
def requeuedJobs (jobs : List JobRow) : List JobRow :=
  (recoverRunningJobs jobs).filter (fun j => j.status == "queued")

/-! ## Concrete instances used by witnesses and counterexamples -/

/-- A date parser model that rejects everything (any fixed model works for
the concrete runs below). -/
def jd0 : String → Option ℤ := fun _ => none

def emptyDb : Db :=
  { product_group := [], product := [], customer := [], seller := [],
    payment_term := [], sale := [], sale_item := [], customer_payment := [],
    stock_movement := [], nextId := 0 }

def custData0 : CustData :=
  { name := none, cpf := none, address := none, city := none, uf := none,
    cep := none, phone := none, status := "active", notes := none }

/-- A database holding one already-migrated customer with legacy code C1. -/
def dbCust : Db :=
  { emptyDb with customer := [{ id := 0, key := some "C1", val := custData0 }], nextId := 1 }

def emptyStaging : Staging := ⟨[], [], [], [], [], [], [], [], []⟩

/-- Staging holding a single payment row for customer C1. -/
def stgPay : Staging :=
  { emptyStaging with stg_pagament :=
      [{ cod_cli := some "C1", valor_doc := none, vlr_pago := none,
         restante := none, pagamento := none }] }

/-- A number/date formatter model used by concrete runs. -/
def nts0 : ℚ → String := fun _ => ""

def di0 : ℤ → String := fun _ => ""

/-- An environment providing exactly the required files, all empty. -/
def envAllRequired : Env := { files := REQUIRED_FILES, records := fun _ => [] }

/-- An environment missing VENDAS.DBF. -/
def envMissingVendas : Env :=
  { files := ["PRODUTO.DBF", "GRUPO.DBF", "CLIENTES.DBF", "VENDEDOR.DBF"],
    records := fun _ => [] }

/-- Initial pipeline state over a database holding one reference row
(product group G1). -/
def dbPG : Db :=
  { emptyDb with
    product_group := [{ id := 0, key := some "G1", val := { name := some "Legacy" } }]
    nextId := 1 }

def stPG : St := { db := dbPG, store := [], evs := [] }

def stEmpty : St := { db := emptyDb, store := [], evs := [] }

/-- A staged orders row with key 1 and a single slot holding the unknown
product code P9. -/
def ordRow : StgSaleRow :=
  { pedido := some "1", emissao := none, cod_vend := none, cod_cli := none,
    cod_fpg := none, sub_total := none, desconto := none, total_gera := none,
    cod1 := some "P9", cod2 := none, cod3 := none, cod4 := none, cod5 := none,
    cod6 := none, cod7 := none,
    qtde1 := none, qtde2 := none, qtde3 := none, qtde4 := none, qtde5 := none,
    qtde6 := none, qtde7 := none,
    vlr1 := none, vlr2 := none, vlr3 := none, vlr4 := none, vlr5 := none,
    vlr6 := none, vlr7 := none,
    total1 := none, total2 := none, total3 := none, total4 := none, total5 := none,
    total6 := none, total7 := none }

/-- A date parser model that accepts every non-blank string (the concrete
runs below use a parseable ISO date, for which JS `new Date` succeeds). -/
def jdOk : String → Option ℤ := fun _ => some 0

/-- The orders row above, with a parseable emission date, so that the
header insert satisfies the `emission_date` not-null constraint. -/
def ordRowDated : StgSaleRow := { ordRow with emissao := some "2020-01-01" }

/-- Staging holding that single dated orders row. -/
def stgOrdDated : Staging := { emptyStaging with stg_pedidos := [ordRowDated] }

/-! ## Basic lemmas about the string/number model -/

theorem foldr_if_filter_map {α β : Type} (p : α → Bool) (f : α → β) (l : List α) :
    l.foldr (fun a acc => if p a then f a :: acc else acc) [] = (l.filter p).map f := by
  induction l with
  | nil => rfl
  | cons a t ih => by_cases h : p a <;> simp [List.filter_cons, h, ih]

/-- Value-level description of `extractSaleItems`: filter the truthy slots,
map each to its item. -/
theorem extractSaleItems_eq_filter_map (r : StgSaleRow) :
    extractSaleItems r =
      ((slotIndices.filter (fun i => truthy (r.slot i).cod)).map (fun i => slotItem (r.slot i))) :=
  foldr_if_filter_map _ _ _

theorem replaceFirstCommaAux_no_comma (l : List Char) (h : ',' ∉ l) :
    replaceFirstCommaAux l = l := by
  induction l with
  | nil => rfl
  | cons c rest ih =>
    have hc : c ≠ ',' := fun hc => h (hc ▸ List.mem_cons_self c rest)
    simp only [replaceFirstCommaAux, if_neg (fun hcc => hc hcc)]
    rw [ih (fun hm => h (List.mem_cons_of_mem c hm))]

theorem replaceFirstCommaAux_first (a b : List Char) (h : ',' ∉ a) :
    replaceFirstCommaAux (a ++ ',' :: b) = a ++ '.' :: b := by
  induction a with
  | nil => simp [replaceFirstCommaAux]
  | cons c rest ih =>
    have hc : c ≠ ',' := fun hc => h (hc ▸ List.mem_cons_self c rest)
    simp only [List.cons_append, replaceFirstCommaAux, if_neg (fun hcc => hc hcc)]
    rw [List.append_eq, ih (fun hm => h (List.mem_cons_of_mem c hm))]

theorem normalizeNumber_some_ne_empty (s : String) (h : s ≠ "") :
    normalizeNumber (some s) = jsStringToNumber (jsReplaceCommaDot s) := by
  simp [normalizeNumber, h]

/-- C10: numeric normalization replaces only the first comma with a dot and
then applies JS `Number` conversion: a comma-free prefix is kept, everything
after the first comma is untouched; a comma-free (e.g. dot-decimal) string is
parsed unchanged; `"12,5"` yields `12.5`; and a string that is still not a
numeric literal after the single substitution (such as `"1.234,56"` or
`"1,2,3"`) normalizes to null, never to a number or an error. -/
theorem normalizeNumber_comma_semantics :
    (∀ a b : List Char, ',' ∉ a →
      jsReplaceCommaDot (String.mk (a ++ ',' :: b)) = String.mk (a ++ '.' :: b)) ∧
    (∀ s : String, ',' ∉ s.data → jsReplaceCommaDot s = s) ∧
    (∀ s : String, s ≠ "" →
      normalizeNumber (some s) = jsStringToNumber (jsReplaceCommaDot s)) ∧
    normalizeNumber (some "12,5") = some (25 / 2 : ℚ) ∧
    (∀ s : String, ',' ∉ s.data → s ≠ "" →
      normalizeNumber (some s) = jsStringToNumber s) ∧
    (∀ s : String, jsStringToNumber (jsReplaceCommaDot s) = none →
      normalizeNumber (some s) = none) ∧
    normalizeNumber (some "1.234,56") = none ∧
    normalizeNumber (some "1,2,3") = none := by
  refine ⟨?_, ?_, ?_, ?_, ?_, ?_, ?_, ?_⟩
  · intro a b h
    show String.mk (replaceFirstCommaAux (a ++ ',' :: b)) = _
    rw [replaceFirstCommaAux_first a b h]
  · intro s h
    cases s with
    | mk l =>
      show String.mk (replaceFirstCommaAux l) = _
      rw [replaceFirstCommaAux_no_comma l h]
  · exact normalizeNumber_some_ne_empty
  · rw [show normalizeNumber (some "12,5") =
        some ((((12 : ℕ) : ℚ) + ((5 : ℕ) : ℚ) / (10 : ℚ) ^ (1 : ℕ)) * (10 : ℚ) ^ (0 : ℤ))
        from rfl]
    norm_num
  · intro s hnc hne
    rw [normalizeNumber_some_ne_empty s hne]
    cases s with
    | mk l =>
      show jsStringToNumber (String.mk (replaceFirstCommaAux l)) = _
      rw [replaceFirstCommaAux_no_comma l hnc]
  · intro s h
    by_cases hs : s = ""
    · subst hs; rfl
    · rw [normalizeNumber_some_ne_empty s hs, h]
  · rfl
  · rfl

/-- C9: for any slot with a truthy (non-null, non-empty) product code, the
extracted item is emitted, and whenever one of its numeric cells normalizes
to null — which happens exactly when the cell is SQL NULL, the empty string,
or a string that is still non-numeric after comma substitution — the item
carries `0` for that field (the `?? 0` defaulting), so every emitted item has
numeric quantity, unit price and total. -/
theorem slot_numeric_zero_default (r : StgSaleRow) (i : ℕ) (hi : i ∈ slotIndices)
    (hcod : truthy (r.slot i).cod = true) :
    (∀ v : DbVal, (v = none ∨ v = some "" ∨
        ∃ s, v = some s ∧ jsStringToNumber (jsReplaceCommaDot s) = none) →
      normalizeNumber v = none) ∧
    slotItem (r.slot i) ∈ extractSaleItems r ∧
    (normalizeNumber (r.slot i).qtde = none → (slotItem (r.slot i)).quantity = 0) ∧
    (normalizeNumber (r.slot i).vlr = none → (slotItem (r.slot i)).price = 0) ∧
    (normalizeNumber (r.slot i).total = none → (slotItem (r.slot i)).total = 0) := by
  refine ⟨?_, ?_, ?_, ?_, ?_⟩
  · rintro v (rfl | rfl | ⟨s, rfl, hs⟩)
    · rfl
    · rfl
    · by_cases h : s = ""
      · subst h; rfl
      · rw [normalizeNumber_some_ne_empty s h, hs]
  · rw [extractSaleItems_eq_filter_map]
    exact List.mem_map_of_mem _ (List.mem_filter.mpr ⟨hi, hcod⟩)
  · intro h; simp [slotItem, h]
  · intro h; simp [slotItem, h]
  · intro h; simp [slotItem, h]

theorem keys_upsert {V : Type} (t : List (KRow V)) (k : String) (v : V) (fresh : ℕ) :
    ((upsert t k v fresh).1).map (fun r => r.key) =
      if hasKey t k then t.map (fun r => r.key)
      else t.map (fun r => r.key) ++ [some k] := by
  by_cases h : hasKey t k
  · simp only [upsert, if_pos h, List.map_map]
    refine List.map_congr_left (fun r _ => ?_)
    by_cases hk : r.key = some k <;> simp [hk]
  · simp [upsert, if_neg h, h]

theorem hasKey_congr_keys {V W : Type} (t : List (KRow V)) (u : List (KRow W)) (k : String)
    (h : t.map (fun r => r.key) = u.map (fun r => r.key)) : hasKey t k = hasKey u k := by
  simp only [hasKey, h]

theorem hasKey_upsert_self {V : Type} (t : List (KRow V)) (k : String) (v : V) (fresh : ℕ) :
    hasKey (upsert t k v fresh).1 k = true := by
  have hk := keys_upsert t k v fresh
  by_cases h : hasKey t k
  · rw [if_pos h] at hk
    show (((upsert t k v fresh).1).map (fun r => r.key)).any (fun x => x == some k) = true
    rw [hk]; exact h
  · rw [if_neg h] at hk
    show (((upsert t k v fresh).1).map (fun r => r.key)).any (fun x => x == some k) = true
    rw [hk, List.any_append]
    simp

theorem hasKey_upsert_mono {V : Type} (t : List (KRow V)) (k k' : String) (v : V) (fresh : ℕ)
    (h : hasKey t k' = true) : hasKey (upsert t k v fresh).1 k' = true := by
  have hkk := keys_upsert t k v fresh
  by_cases hk : hasKey t k
  · rw [if_pos hk] at hkk
    show (((upsert t k v fresh).1).map (fun r => r.key)).any (fun x => x == some k') = true
    rw [hkk]; exact h
  · rw [if_neg hk] at hkk
    show (((upsert t k v fresh).1).map (fun r => r.key)).any (fun x => x == some k') = true
    rw [hkk, List.any_append,
      show ((t.map (fun r => r.key)).any (fun x => x == some k')) = true from h]
    rfl

theorem length_upsert {V : Type} (t : List (KRow V)) (k : String) (v : V) (fresh : ℕ) :
    ((upsert t k v fresh).1).length = if hasKey t k then t.length else t.length + 1 := by
  by_cases h : hasKey t k <;> simp [upsert, h]

theorem hasKey_upsertMany_mono {V : Type} (kvs : List (String × V)) (t : List (KRow V))
    (fresh : ℕ) (k : String) (h : hasKey t k = true) :
    hasKey (upsertMany t fresh kvs).1 k = true := by
  induction kvs generalizing t fresh with
  | nil => exact h
  | cons kv rest ih => exact ih _ _ (hasKey_upsert_mono _ _ _ _ _ h)

theorem hasKey_upsertMany_of_mem {V : Type} (kvs : List (String × V)) (t : List (KRow V))
    (fresh : ℕ) (kv : String × V) (h : kv ∈ kvs) :
    hasKey (upsertMany t fresh kvs).1 kv.1 = true := by
  induction kvs generalizing t fresh with
  | nil => cases h
  | cons hd rest ih =>
    rcases List.mem_cons.mp h with rfl | hmem
    · exact hasKey_upsertMany_mono rest _ _ _ (hasKey_upsert_self _ _ _ _)
    · exact ih _ _ hmem

theorem length_upsertMany_all_present {V : Type} (kvs : List (String × V))
    (t : List (KRow V)) (fresh : ℕ) (h : ∀ kv ∈ kvs, hasKey t kv.1 = true) :
    ((upsertMany t fresh kvs).1).length = t.length := by
  induction kvs generalizing t fresh with
  | nil => rfl
  | cons hd rest ih =>
    have hhd : hasKey t hd.1 = true := h hd (List.mem_cons_self _ _)
    have hlen : ((upsert t hd.1 hd.2 fresh).1).length = t.length := by
      rw [length_upsert, if_pos hhd]
    rw [show upsertMany t fresh (hd :: rest) =
      upsertMany (upsert t hd.1 hd.2 fresh).1 (upsert t hd.1 hd.2 fresh).2 rest from rfl,
      ih _ _ (fun kv hkv => hasKey_upsert_mono _ _ _ _ _ (h kv (List.mem_cons_of_mem _ hkv))),
      hlen]

/-- Re-running the same declarative upsert leaves the row count unchanged:
after the first pass every source key is present, so the second pass only
updates. -/
theorem length_upsertMany_idem {V : Type} (kvs : List (String × V)) (t : List (KRow V))
    (f1 f2 : ℕ) :
    ((upsertMany (upsertMany t f1 kvs).1 f2 kvs).1).length =
      ((upsertMany t f1 kvs).1).length :=
  length_upsertMany_all_present kvs _ f2
    (fun kv hkv => hasKey_upsertMany_of_mem kvs t f1 kv hkv)

/-- C5: slot expansion emits exactly one item per slot index 1..7 whose
product-code cell is truthy, in slot order (sparse slots allowed), and each
emitted item carries that slot's trimmed code and its normalized quantity,
unit price and total cells. -/
theorem extractSaleItems_slot_expansion (r : StgSaleRow) :
    extractSaleItems r =
      (slotIndices.filter (fun i => truthy (r.slot i).cod)).map
        (fun i => slotItem (r.slot i)) ∧
    (extractSaleItems r).length =
      (slotIndices.filter (fun i => truthy (r.slot i).cod)).length ∧
    ∀ i ∈ slotIndices, truthy (r.slot i).cod = true →
      slotItem (r.slot i) ∈ extractSaleItems r ∧
      (slotItem (r.slot i)).cod = jsTrim ((r.slot i).cod.getD "") ∧
      (slotItem (r.slot i)).quantity = (normalizeNumber (r.slot i).qtde).getD 0 ∧
      (slotItem (r.slot i)).price = (normalizeNumber (r.slot i).vlr).getD 0 ∧
      (slotItem (r.slot i)).total = (normalizeNumber (r.slot i).total).getD 0 := by
  refine ⟨extractSaleItems_eq_filter_map r, ?_, ?_⟩
  · rw [extractSaleItems_eq_filter_map, List.length_map]
  · intro i hi hcod
    refine ⟨?_, rfl, rfl, rfl, rfl⟩
    rw [extractSaleItems_eq_filter_map]
    exact List.mem_map_of_mem _ (List.mem_filter.mpr ⟨hi, hcod⟩)

/-! ## Characterizations of the auxiliary migrators -/

theorem payments_foldl_char (jsDate : String → Option ℤ) (rows : List StgPagamentRow)
    (db : Db) (n : ℕ) :
    rows.foldl (paymentStep jsDate) (db, n) =
      ({ db with customer_payment := db.customer_payment ++
          rows.filterMap (paymentRowOf jsDate db.customer) },
       n + (rows.filterMap (paymentRowOf jsDate db.customer)).length) := by
  induction rows generalizing db n with
  | nil => simp
  | cons r rest ih =>
    rw [List.foldl_cons, List.filterMap_cons]
    cases ht : truthy r.cod_cli with
    | false =>
      simp only [paymentStep, paymentRowOf, ht, Bool.false_eq_true, if_false]
      exact ih db n
    | true =>
      cases hf : db.customer.find? (fun c => c.key == some (jsTrim (r.cod_cli.getD ""))) with
      | none =>
        simp only [paymentStep, paymentRowOf, ht, hf, if_true]
        exact ih db n
      | some c =>
        simp only [paymentStep, paymentRowOf, ht, hf, if_true]
        rw [ih]
        simp [List.append_assoc]
        omega

theorem migrateCustomerPayments_char (jsDate : String → Option ℤ) (stg : Staging)
    (db : Db) :
    migrateCustomerPayments jsDate stg db =
      ({ db with customer_payment := db.customer_payment ++
          stg.stg_pagament.filterMap (paymentRowOf jsDate db.customer) },
       (stg.stg_pagament.filterMap (paymentRowOf jsDate db.customer)).length) := by
  rw [show migrateCustomerPayments jsDate stg db =
    stg.stg_pagament.foldl (paymentStep jsDate) (db, 0) from rfl, payments_foldl_char]
  simp

theorem stock_foldl_char (jsDate : String → Option ℤ) (productMap : List (String × ℕ))
    (rows : List StgMovEstRow) (db : Db) (n : ℕ) :
    rows.foldl (stockStep jsDate productMap) (db, n) =
      ({ db with stock_movement := db.stock_movement ++
          rows.filterMap (stockRowOf jsDate productMap) },
       n + (rows.filterMap (stockRowOf jsDate productMap)).length) := by
  induction rows generalizing db n with
  | nil => simp
  | cons r rest ih =>
    rw [List.foldl_cons, List.filterMap_cons]
    cases ht : truthy r.cod_prod with
    | false =>
      simp only [stockStep, stockRowOf, ht, Bool.false_eq_true, if_false]
      exact ih db n
    | true =>
      cases hf : mapGet productMap (jsTrim (r.cod_prod.getD "")) with
      | none =>
        simp only [stockStep, stockRowOf, ht, hf, if_true]
        exact ih db n
      | some pid =>
        simp only [stockStep, stockRowOf, ht, hf, if_true]
        rw [ih]
        simp [List.append_assoc]
        omega

theorem migrateStockMovements_char (jsDate : String → Option ℤ) (stg : Staging)
    (db : Db) :
    migrateStockMovements jsDate stg db =
      ({ db with stock_movement := db.stock_movement ++
          stg.stg_mov_est.filterMap (stockRowOf jsDate (buildLegacyMap db.product)) },
       (stg.stg_mov_est.filterMap (stockRowOf jsDate (buildLegacyMap db.product))).length) := by
  rw [show migrateStockMovements jsDate stg db =
    stg.stg_mov_est.foldl (stockStep jsDate (buildLegacyMap db.product)) (db, 0) from rfl,
    stock_foldl_char]
  simp

/-- C3 (amended): the customer_payment and stock_movement writes are plain
keyless inserts, so re-running them with the same staged data appends the
resolvable staged rows again instead of converging: each run inserts the
same count once more, and after two runs the tables have grown by twice
that count. -/
theorem auxiliary_inserts_duplicate_on_rerun (jsDate : String → Option ℤ)
    (stg : Staging) (db : Db) :
    (((migrateCustomerPayments jsDate stg db).1).customer_payment.length =
        db.customer_payment.length + (migrateCustomerPayments jsDate stg db).2) ∧
    ((migrateCustomerPayments jsDate stg
        (migrateCustomerPayments jsDate stg db).1).2 =
      (migrateCustomerPayments jsDate stg db).2) ∧
    (((migrateCustomerPayments jsDate stg
        (migrateCustomerPayments jsDate stg db).1).1).customer_payment.length =
      db.customer_payment.length + 2 * (migrateCustomerPayments jsDate stg db).2) ∧
    (((migrateStockMovements jsDate stg db).1).stock_movement.length =
        db.stock_movement.length + (migrateStockMovements jsDate stg db).2) ∧
    ((migrateStockMovements jsDate stg
        (migrateStockMovements jsDate stg db).1).2 =
      (migrateStockMovements jsDate stg db).2) ∧
    (((migrateStockMovements jsDate stg
        (migrateStockMovements jsDate stg db).1).1).stock_movement.length =
      db.stock_movement.length + 2 * (migrateStockMovements jsDate stg db).2) := by
  rw [migrateCustomerPayments_char, migrateCustomerPayments_char,
    migrateStockMovements_char, migrateStockMovements_char]
  simp [migrateCustomerPayments_char, migrateStockMovements_char]
  omega

/-- C3 (counterexample to the claim as stated): with one already-migrated
customer C1 and a staged payment row for C1, running the payments migration
twice with the same staged data leaves customer_payment with two rows where
a single run leaves one — the final row multiset is not that of a single
run. -/
theorem customer_payment_rerun_duplicates_cex :
    ((migrateCustomerPayments jd0 stgPay
        (migrateCustomerPayments jd0 stgPay dbCust).1).1).customer_payment.length = 2 ∧
    ((migrateCustomerPayments jd0 stgPay dbCust).1).customer_payment.length = 1 := by
  constructor <;> rfl


/-! ## Lemmas on the transactional migration -/

theorem itemsFold_char (m : SaleMaps) (io : Bool) (sid : ℕ) (key : String)
    (items : List SaleItem) (d : Db) (s : SaleSummary) :
    items.foldl (itemStep m io sid key) (d, s) =
      ({ d with sale_item := d.sale_item ++ items.filterMap (resolvedItemOf m sid) },
       { s with
         mismatches := s.mismatches ++ items.filterMap (itemMismatchOf m io key)
         saleItems := s.saleItems +
           (if io then 0 else (items.filterMap (resolvedItemOf m sid)).length)
         orderItems := s.orderItems +
           (if io then (items.filterMap (resolvedItemOf m sid)).length else 0) }) := by
  induction items generalizing d s with
  | nil => simp
  | cons it rest ih =>
    rw [List.foldl_cons, List.filterMap_cons, List.filterMap_cons]
    cases hp : mapGet m.productMap it.cod with
    | none =>
      simp only [itemStep, resolvedItemOf, itemMismatchOf, hp, Option.map_none']
      rw [ih]
      simp [List.append_assoc]
    | some pid =>
      simp only [itemStep, resolvedItemOf, itemMismatchOf, hp, Option.map_some']
      cases io with
      | false =>
        rw [ih]
        simp [List.append_assoc]
        omega
      | true =>
        rw [ih]
        simp [List.append_assoc]
        omega

theorem saleKeyMatches_update (src key s2 k2 : String) (d : SaleData) (u : Bool)
    (r : SaleRow) :
    saleKeyMatches s2 k2 (if saleKeyMatches src key r then
      { r with data := if u then d else { d with status := r.data.status } } else r) =
      saleKeyMatches s2 k2 r := by
  by_cases h : saleKeyMatches src key r = true
  · rw [if_pos h]; rfl
  · rw [if_neg h]

theorem salePresent_saleUpsert_mono (t : List SaleRow) (src key s2 k2 : String)
    (d : SaleData) (u : Bool) (f : ℕ) (h : salePresent t s2 k2 = true) :
    salePresent (saleUpsert t src key d u f).1 s2 k2 = true := by
  unfold saleUpsert
  cases hf : t.find? (saleKeyMatches src key) with
  | some r0 =>
    unfold salePresent at h ⊢
    rw [List.any_eq_true] at h ⊢
    obtain ⟨r, hr, hp⟩ := h
    exact ⟨_, List.mem_map_of_mem _ hr, by rw [saleKeyMatches_update]; exact hp⟩
  | none =>
    unfold salePresent at h ⊢
    rw [List.any_append, h, Bool.true_or]

theorem salePresent_saleUpsert_self (t : List SaleRow) (src key : String)
    (d : SaleData) (u : Bool) (f : ℕ) :
    salePresent (saleUpsert t src key d u f).1 src key = true := by
  unfold saleUpsert
  cases hf : t.find? (saleKeyMatches src key) with
  | some r0 =>
    unfold salePresent
    rw [List.any_eq_true]
    refine ⟨_, List.mem_map_of_mem _ (List.mem_of_find?_eq_some hf), ?_⟩
    rw [saleKeyMatches_update]
    exact List.find?_some hf
  | none =>
    unfold salePresent
    rw [List.any_append]
    simp [saleKeyMatches]

theorem length_saleUpsert (t : List SaleRow) (src key : String) (d : SaleData)
    (u : Bool) (f : ℕ) :
    ((saleUpsert t src key d u f).1).length =
      if salePresent t src key then t.length else t.length + 1 := by
  unfold saleUpsert
  cases hf : t.find? (saleKeyMatches src key) with
  | some r0 =>
    rw [if_pos]
    · simp
    · unfold salePresent
      rw [List.any_eq_true]
      exact ⟨r0, List.mem_of_find?_eq_some hf, List.find?_some hf⟩
  | none =>
    rw [if_neg]
    · simp
    · unfold salePresent
      rw [List.any_eq_true]
      rintro ⟨x, hx, hpx⟩
      exact absurd hpx (by simpa using List.find?_eq_none.mp hf x hx)

theorem migrateTxnRow_fst_sale (jd : String → Option ℤ) (m : SaleMaps) (io : Bool)
    (acc : Db × SaleSummary) (r : StgSaleRow) :
    ((migrateTxnRow jd m io acc r).1).sale =
      if truthy r.pedido then
        (saleUpsert acc.1.sale (srcLabel io) (txnKey r)
          (txnSaleData jd m io (txnKey r) r) io acc.1.nextId).1
      else acc.1.sale := by
  cases ht : truthy r.pedido with
  | false => simp [migrateTxnRow, ht]
  | true =>
    simp only [migrateTxnRow, ht, if_true]
    rw [itemsFold_char]

theorem migrateTxnRow_refFrame (jd : String → Option ℤ) (m : SaleMaps) (io : Bool)
    (acc : Db × SaleSummary) (r : StgSaleRow) :
    refFrame (migrateTxnRow jd m io acc r).1 = refFrame acc.1 := by
  cases ht : truthy r.pedido with
  | false => simp [migrateTxnRow, ht]
  | true =>
    simp only [migrateTxnRow, ht, if_true]
    rw [itemsFold_char]
    rfl

theorem migrateTxnRow_mismatches (jd : String → Option ℤ) (m : SaleMaps) (io : Bool)
    (acc : Db × SaleSummary) (r : StgSaleRow) :
    ((migrateTxnRow jd m io acc r).2).mismatches =
      acc.2.mismatches ++
        (if truthy r.pedido then
          (extractSaleItems r).filterMap (itemMismatchOf m io (txnKey r)) else []) := by
  cases ht : truthy r.pedido with
  | false => simp [migrateTxnRow, ht]
  | true =>
    simp only [migrateTxnRow, ht, if_true]
    rw [itemsFold_char]
    cases io <;> rfl

theorem txnFold_refFrame (jd : String → Option ℤ) (m : SaleMaps) (io : Bool)
    (rows : List StgSaleRow) (acc : Db × SaleSummary) :
    refFrame ((rows.foldl (migrateTxnRow jd m io) acc).1) = refFrame acc.1 := by
  induction rows generalizing acc with
  | nil => rfl
  | cons r rest ih =>
    rw [List.foldl_cons, ih, migrateTxnRow_refFrame]

theorem txnFold_mismatches_mono (jd : String → Option ℤ) (m : SaleMaps) (io : Bool)
    (rows : List StgSaleRow) (acc : Db × SaleSummary) (x : String)
    (h : x ∈ acc.2.mismatches) :
    x ∈ ((rows.foldl (migrateTxnRow jd m io) acc).2).mismatches := by
  induction rows generalizing acc with
  | nil => exact h
  | cons r rest ih =>
    rw [List.foldl_cons]
    exact ih _ (by rw [migrateTxnRow_mismatches]; exact List.mem_append_left _ h)

theorem txnFold_salePresent_mono (jd : String → Option ℤ) (m : SaleMaps) (io : Bool)
    (rows : List StgSaleRow) (acc : Db × SaleSummary) (s2 k2 : String)
    (h : salePresent acc.1.sale s2 k2 = true) :
    salePresent ((rows.foldl (migrateTxnRow jd m io) acc).1).sale s2 k2 = true := by
  induction rows generalizing acc with
  | nil => exact h
  | cons r rest ih =>
    rw [List.foldl_cons]
    refine ih _ ?_
    rw [migrateTxnRow_fst_sale]
    cases ht : truthy r.pedido with
    | false => exact h
    | true => exact salePresent_saleUpsert_mono _ _ _ _ _ _ _ _ h

theorem txnFold_salePresent_of_mem (jd : String → Option ℤ) (m : SaleMaps) (io : Bool)
    (rows : List StgSaleRow) (acc : Db × SaleSummary) (r : StgSaleRow)
    (hr : r ∈ rows) (ht : truthy r.pedido = true) :
    salePresent ((rows.foldl (migrateTxnRow jd m io) acc).1).sale
      (srcLabel io) (txnKey r) = true := by
  induction rows generalizing acc with
  | nil => cases hr
  | cons hd rest ih =>
    rw [List.foldl_cons]
    rcases List.mem_cons.mp hr with rfl | hmem
    · refine txnFold_salePresent_mono jd m io rest _ _ _ ?_
      rw [migrateTxnRow_fst_sale, if_pos ht]
      exact salePresent_saleUpsert_self _ _ _ _ _ _
    · exact ih _ hmem

theorem txnFold_sale_length_all_present (jd : String → Option ℤ) (m : SaleMaps)
    (io : Bool) (rows : List StgSaleRow) (acc : Db × SaleSummary)
    (h : ∀ r ∈ rows, truthy r.pedido = true →
      salePresent acc.1.sale (srcLabel io) (txnKey r) = true) :
    (((rows.foldl (migrateTxnRow jd m io) acc).1).sale).length = (acc.1.sale).length := by
  induction rows generalizing acc with
  | nil => rfl
  | cons hd rest ih =>
    rw [List.foldl_cons]
    have hsale := migrateTxnRow_fst_sale jd m io acc hd
    cases ht : truthy hd.pedido with
    | false =>
      rw [ht] at hsale
      simp only [Bool.false_eq_true, if_false] at hsale
      rw [ih _ (fun r hr htr => by rw [hsale]; exact h r (List.mem_cons_of_mem _ hr) htr),
        hsale]
    | true =>
      rw [if_pos ht] at hsale
      have hlen : (((migrateTxnRow jd m io acc hd).1).sale).length = (acc.1.sale).length := by
        rw [hsale, length_saleUpsert, if_pos (h hd (List.mem_cons_self _ _) ht)]
      rw [ih _ (fun r hr htr => ?_), hlen]
      rw [hsale]
      exact salePresent_saleUpsert_mono _ _ _ _ _ _ _ _
        (h r (List.mem_cons_of_mem _ hr) htr)

theorem txnFold_mismatch_of_mem (jd : String → Option ℤ) (m : SaleMaps) (io : Bool)
    (rows : List StgSaleRow) (acc : Db × SaleSummary) (r : StgSaleRow)
    (item : SaleItem) (msg : String) (hr : r ∈ rows) (ht : truthy r.pedido = true)
    (hitem : item ∈ extractSaleItems r)
    (hmsg : itemMismatchOf m io (txnKey r) item = some msg) :
    msg ∈ ((rows.foldl (migrateTxnRow jd m io) acc).2).mismatches := by
  induction rows generalizing acc with
  | nil => cases hr
  | cons hd rest ih =>
    rw [List.foldl_cons]
    rcases List.mem_cons.mp hr with rfl | hmem
    · refine txnFold_mismatches_mono jd m io rest _ _ ?_
      rw [migrateTxnRow_mismatches, if_pos ht]
      exact List.mem_append_right _ (List.mem_filterMap.mpr ⟨item, hitem, hmsg⟩)
    · exact ih _ hmem

/-! ## Idempotence of the keyed migrations (claim C4) -/

theorem migrateMasterData_sale (stg : Staging) (db : Db) :
    (migrateMasterData stg db).sale = db.sale := rfl

theorem migrateMasterData_product_group_shape (stg : Staging) (db : Db) :
    ∃ f, (migrateMasterData stg db).product_group =
      (upsertMany db.product_group f (grupoKVs stg)).1 := ⟨_, rfl⟩

theorem migrateMasterData_product_shape (stg : Staging) (db : Db) :
    ∃ f t, (migrateMasterData stg db).product =
      (upsertMany db.product f (produtoKVs stg t)).1 := ⟨_, _, rfl⟩

theorem migrateMasterData_customer_shape (stg : Staging) (db : Db) :
    ∃ f, (migrateMasterData stg db).customer =
      (upsertMany db.customer f (clientesKVs stg)).1 := ⟨_, rfl⟩

theorem migrateMasterData_seller_shape (stg : Staging) (db : Db) :
    ∃ f, (migrateMasterData stg db).seller =
      (upsertMany db.seller f (vendedorKVs stg)).1 := ⟨_, rfl⟩

theorem migrateMasterData_payment_term_shape (stg : Staging) (db : Db) :
    ∃ f, (migrateMasterData stg db).payment_term =
      (upsertMany db.payment_term f (formaPgKVs stg)).1 := ⟨_, rfl⟩

theorem produtoKVs_keys (stg : Staging) (t1 t2 : List (KRow PGData)) :
    (produtoKVs stg t1).map (fun kv => kv.1) =
      (produtoKVs stg t2).map (fun kv => kv.1) := by
  simp only [produtoKVs, List.map_map]
  rfl

theorem hasKey_upsertMany_of_key_mem {V : Type} (kvs : List (String × V))
    (t : List (KRow V)) (fresh : ℕ) (k : String)
    (h : k ∈ kvs.map (fun kv => kv.1)) :
    hasKey (upsertMany t fresh kvs).1 k = true := by
  rcases List.mem_map.mp h with ⟨kv, hkv, rfl⟩
  exact hasKey_upsertMany_of_mem kvs t fresh kv hkv

theorem migrateSales_eq (jd : String → Option ℤ) (stg : Staging) (db : Db) :
    migrateSales jd false stg db =
      stg.stg_pedidos.foldl (migrateTxnRow jd (salesMapsOf db) true)
        (stg.stg_vendas.foldl (migrateTxnRow jd (salesMapsOf db) false)
          (db, ⟨0, 0, 0, 0, []⟩)) := rfl

theorem migrateSales_refFrame (jd : String → Option ℤ) (ow : Bool) (stg : Staging)
    (db : Db) :
    refFrame ((migrateSales jd ow stg db).1) = refFrame db := by
  rw [show migrateSales jd ow stg db =
      stg.stg_pedidos.foldl
        (migrateTxnRow jd (salesMapsOf (if ow then overwriteDeleteSales db else db)) true)
        (stg.stg_vendas.foldl
          (migrateTxnRow jd (salesMapsOf (if ow then overwriteDeleteSales db else db)) false)
          ((if ow then overwriteDeleteSales db else db), ⟨0, 0, 0, 0, []⟩)) from rfl,
    txnFold_refFrame, txnFold_refFrame]
  cases ow with
  | false => rfl
  | true => rfl

theorem corePass_tables (jd : String → Option ℤ) (stg : Staging) (x : Db) :
    (corePass jd stg x).product_group = (migrateMasterData stg x).product_group ∧
    (corePass jd stg x).product = (migrateMasterData stg x).product ∧
    (corePass jd stg x).customer = (migrateMasterData stg x).customer ∧
    (corePass jd stg x).seller = (migrateMasterData stg x).seller ∧
    (corePass jd stg x).payment_term = (migrateMasterData stg x).payment_term ∧
    (corePass jd stg x).sale =
      ((migrateSales jd false stg (migrateMasterData stg x)).1).sale := by
  have hs := migrateSales_refFrame jd false stg (migrateMasterData stg x)
  rw [show corePass jd stg x =
      ((migrateStockMovements jd stg ((migrateCustomerPayments jd stg
        ((migrateSales jd false stg (migrateMasterData stg x)).1)).1)).1) from rfl,
    migrateCustomerPayments_char, migrateStockMovements_char]
  exact ⟨congrArg (fun p => p.1) hs, congrArg (fun p => (p.2).1) hs,
    congrArg (fun p => ((p.2).2).1) hs, congrArg (fun p => (((p.2).2).2).1) hs,
    congrArg (fun p => (((p.2).2).2).2) hs, rfl⟩

theorem migrateSales_presence (jd : String → Option ℤ) (stg : Staging) (y : Db) :
    (∀ r ∈ stg.stg_vendas, truthy r.pedido = true →
      salePresent ((migrateSales jd false stg y).1).sale "VENDAS" (txnKey r) = true) ∧
    (∀ r ∈ stg.stg_pedidos, truthy r.pedido = true →
      salePresent ((migrateSales jd false stg y).1).sale "PEDIDOS" (txnKey r) = true) := by
  constructor
  · intro r hr ht
    rw [migrateSales_eq]
    exact txnFold_salePresent_mono _ _ _ _ _ _ _
      (txnFold_salePresent_of_mem _ _ _ _ _ r hr ht)
  · intro r hr ht
    rw [migrateSales_eq]
    exact txnFold_salePresent_of_mem _ _ _ _ _ r hr ht

theorem migrateSales_sale_length_of_present (jd : String → Option ℤ) (stg : Staging)
    (y : Db)
    (hV : ∀ r ∈ stg.stg_vendas, truthy r.pedido = true →
      salePresent y.sale "VENDAS" (txnKey r) = true)
    (hP : ∀ r ∈ stg.stg_pedidos, truthy r.pedido = true →
      salePresent y.sale "PEDIDOS" (txnKey r) = true) :
    (((migrateSales jd false stg y).1).sale).length = (y.sale).length := by
  rw [migrateSales_eq]
  have hinner := txnFold_sale_length_all_present jd (salesMapsOf y) false
    stg.stg_vendas (y, ⟨0, 0, 0, 0, []⟩) (fun r hr ht => hV r hr ht)
  have houter := txnFold_sale_length_all_present jd (salesMapsOf y) true
    stg.stg_pedidos
    (stg.stg_vendas.foldl (migrateTxnRow jd (salesMapsOf y) false) (y, ⟨0, 0, 0, 0, []⟩))
    (fun r hr ht => txnFold_salePresent_mono _ _ _ _ _ _ _ (hP r hr ht))
  rw [houter, hinner]

/-- C4: running the same import's data migrations twice with overwrite=false
against already-migrated core data leaves every reference-entity table
(product_group, product, customer, seller, payment_term) and the sale table
with the same row count as a single run, because each such write is an
upsert keyed by legacy code or (source, source key). -/
theorem reference_upserts_idempotent_counts (jd : String → Option ℤ) (stg : Staging)
    (db : Db) :
    ((corePass jd stg (corePass jd stg db)).product_group).length =
      ((corePass jd stg db).product_group).length ∧
    ((corePass jd stg (corePass jd stg db)).product).length =
      ((corePass jd stg db).product).length ∧
    ((corePass jd stg (corePass jd stg db)).customer).length =
      ((corePass jd stg db).customer).length ∧
    ((corePass jd stg (corePass jd stg db)).seller).length =
      ((corePass jd stg db).seller).length ∧
    ((corePass jd stg (corePass jd stg db)).payment_term).length =
      ((corePass jd stg db).payment_term).length ∧
    ((corePass jd stg (corePass jd stg db)).sale).length =
      ((corePass jd stg db).sale).length := by
  obtain ⟨h1, h2, h3, h4, h5, h6⟩ := corePass_tables jd stg db
  obtain ⟨g1, g2, g3, g4, g5, g6⟩ := corePass_tables jd stg (corePass jd stg db)
  refine ⟨?_, ?_, ?_, ?_, ?_, ?_⟩
  · obtain ⟨f2, hf2⟩ := migrateMasterData_product_group_shape stg (corePass jd stg db)
    obtain ⟨f1, hf1⟩ := migrateMasterData_product_group_shape stg db
    rw [g1, hf2, h1, hf1]
    exact length_upsertMany_idem _ _ _ _
  · obtain ⟨f2, t2, hf2⟩ := migrateMasterData_product_shape stg (corePass jd stg db)
    obtain ⟨f1, t1, hf1⟩ := migrateMasterData_product_shape stg db
    rw [g2, hf2, h2, hf1]
    refine length_upsertMany_all_present _ _ _ (fun kv hkv => ?_)
    refine hasKey_upsertMany_of_key_mem _ _ _ _ ?_
    have hmem : kv.1 ∈ (produtoKVs stg t2).map (fun kv => kv.1) :=
      List.mem_map_of_mem _ hkv
    rw [produtoKVs_keys stg t2 t1] at hmem
    exact hmem
  · obtain ⟨f2, hf2⟩ := migrateMasterData_customer_shape stg (corePass jd stg db)
    obtain ⟨f1, hf1⟩ := migrateMasterData_customer_shape stg db
    rw [g3, hf2, h3, hf1]
    exact length_upsertMany_idem _ _ _ _
  · obtain ⟨f2, hf2⟩ := migrateMasterData_seller_shape stg (corePass jd stg db)
    obtain ⟨f1, hf1⟩ := migrateMasterData_seller_shape stg db
    rw [g4, hf2, h4, hf1]
    exact length_upsertMany_idem _ _ _ _
  · obtain ⟨f2, hf2⟩ := migrateMasterData_payment_term_shape stg (corePass jd stg db)
    obtain ⟨f1, hf1⟩ := migrateMasterData_payment_term_shape stg db
    rw [g5, hf2, h5, hf1]
    exact length_upsertMany_idem _ _ _ _
  · rw [g6]
    have hM2sale : (migrateMasterData stg (corePass jd stg db)).sale =
        ((migrateSales jd false stg (migrateMasterData stg db)).1).sale := by
      rw [migrateMasterData_sale, h6]
    have hpres := migrateSales_presence jd stg (migrateMasterData stg db)
    rw [migrateSales_sale_length_of_present jd stg _
      (fun r hr ht => by rw [hM2sale]; exact hpres.1 r hr ht)
      (fun r hr ht => by rw [hM2sale]; exact hpres.2 r hr ht)]
    rw [hM2sale, h6]

/-! ## Event-trace lemmas for the pipeline -/

theorem statusTrace_append (l1 l2 : List Ev) :
    statusTrace (l1 ++ l2) = statusTrace l1 ++ statusTrace l2 :=
  List.filterMap_append _ _ _

theorem statusTrace_eq_nil_of_no_status (l : List Ev)
    (h : ∀ e ∈ l, isStatusEv e = false) : statusTrace l = [] := by
  induction l with
  | nil => rfl
  | cons e rest ih =>
    have he := h e (List.mem_cons_self _ _)
    cases e with
    | statusUpdate st => exact absurd he (by simp [isStatusEv])
    | logEntry lv msg => exact ih (fun x hx => h x (List.mem_cons_of_mem _ hx))
    | ensureSchemaEv => exact ih (fun x hx => h x (List.mem_cons_of_mem _ hx))
    | truncateTable t => exact ih (fun x hx => h x (List.mem_cons_of_mem _ hx))
    | createStagingTable t => exact ih (fun x hx => h x (List.mem_cons_of_mem _ hx))
    | insertStagingRow t v => exact ih (fun x hx => h x (List.mem_cons_of_mem _ hx))

theorem foldl_evs_extends {α : Type} (g : St → α → St)
    (hg : ∀ s a, ∃ t, (g s a).evs = s.evs ++ t ∧ ∀ e ∈ t, isStatusEv e = false)
    (l : List α) (s : St) :
    ∃ t, (l.foldl g s).evs = s.evs ++ t ∧ ∀ e ∈ t, isStatusEv e = false := by
  induction l generalizing s with
  | nil => exact ⟨[], by simp⟩
  | cons a rest ih =>
    obtain ⟨t1, h1, hs1⟩ := hg s a
    obtain ⟨t2, h2, hs2⟩ := ih (g s a)
    refine ⟨t1 ++ t2, ?_, ?_⟩
    · rw [List.foldl_cons, h2, h1, List.append_assoc]
    · intro e he
      rcases List.mem_append.mp he with h | h
      · exact hs1 e h
      · exact hs2 e h

theorem loadDbf_evs_extends (nts : ℚ → String) (di : ℤ → String) (cfg : StagingConfig)
    (env : Env) (s : St) :
    ∃ t, ((loadDbfIntoStaging nts di cfg env s).1).evs = s.evs ++ t ∧
      ∀ e ∈ t, isStatusEv e = false := by
  by_cases h : env.files.contains cfg.file = true
  · obtain ⟨t, ht, hst⟩ := foldl_evs_extends
      (fun s2 row =>
        { s2 with
          store := storeSet s2.store cfg.table (storeGet s2.store cfg.table ++ [row])
          evs := s2.evs ++ [.insertStagingRow cfg.table row] })
      (fun s2 row => ⟨[.insertStagingRow cfg.table row], rfl, by simp [isStatusEv]⟩)
      ((env.records cfg.file).map (fun rec =>
        cfg.columns.map (fun c => dbfCellToText nts di (rec.fields c.field))))
      (ensureStagingTable cfg s)
    refine ⟨[Ev.createStagingTable cfg.table, Ev.truncateTable cfg.table] ++ t, ?_, ?_⟩
    · simp only [loadDbfIntoStaging, if_pos h]
      rw [ht,
        show (ensureStagingTable cfg s).evs =
          s.evs ++ [Ev.createStagingTable cfg.table, Ev.truncateTable cfg.table] from rfl,
        List.append_assoc]
    · intro e he
      rcases List.mem_append.mp he with h2 | h2
      · rcases List.mem_cons.mp h2 with rfl | h3
        · rfl
        · rcases List.mem_cons.mp h3 with rfl | h4
          · rfl
          · cases h4
      · exact hst e h2
  · refine ⟨[.logEntry .warn ("Optional file " ++ cfg.file ++ " not provided; skipping.")],
      ?_, ?_⟩
    · simp only [loadDbfIntoStaging, if_neg h]
      rfl
    · intro e he
      rcases List.mem_cons.mp he with rfl | h2
      · rfl
      · cases h2

theorem truncateStagingTables_evs_extends (s : St) :
    ∃ t, (truncateStagingTables s).evs = s.evs ++ t ∧
      ∀ e ∈ t, isStatusEv e = false :=
  foldl_evs_extends _
    (fun s2 cfg => ⟨[Ev.truncateTable cfg.table], rfl, by simp [isStatusEv]⟩)
    STAGING_CONFIG s

theorem find?_required_none (env : Env)
    (h : ∀ f ∈ REQUIRED_FILES, env.files.contains f = true) :
    REQUIRED_FILES.find? (fun f => !(env.files.contains f)) = none :=
  List.find?_eq_none.mpr (fun x hx => by rw [h x hx]; decide)

theorem runImport_ok_of_required (jd : String → Option ℤ) (nts : ℚ → String)
    (di : ℤ → String) (env : Env) (ow : Bool) (s0 : St)
    (h : ∀ f ∈ REQUIRED_FILES, env.files.contains f = true) :
    (runImport jd nts di env ow s0).2 = Except.ok () := by
  simp only [runImport, find?_required_none env h]

theorem loadStage_evs_extends (nts : ℚ → String) (di : ℤ → String) (env : Env)
    (s2 : St) (cfg : StagingConfig) :
    ∃ t, (loadStage nts di env s2 cfg).evs = s2.evs ++ t ∧
      ∀ e ∈ t, isStatusEv e = false := by
  obtain ⟨t, ht, hst⟩ := loadDbf_evs_extends nts di cfg env
    (emit s2 (.logEntry .info ("Loading " ++ cfg.file ++ " into staging table " ++ cfg.table)))
  refine ⟨[Ev.logEntry .info
      ("Loading " ++ cfg.file ++ " into staging table " ++ cfg.table)] ++ t, ?_, ?_⟩
  · simp only [loadStage]
    rw [ht, show (emit s2 (.logEntry .info
        ("Loading " ++ cfg.file ++ " into staging table " ++ cfg.table))).evs =
        s2.evs ++ [Ev.logEntry .info
          ("Loading " ++ cfg.file ++ " into staging table " ++ cfg.table)] from rfl,
      List.append_assoc]
  · intro e he
    rcases List.mem_append.mp he with h3 | h3
    · rcases List.mem_cons.mp h3 with rfl | h4
      · rfl
      · cases h4
    · exact hst e h3

/-- The trailing events of `migrateAndFinish`, after any staged state. -/
theorem migrateAndFinish_evs (jd : String → Option ℤ) (ow : Bool) (s : St) :
    (migrateAndFinish jd ow s).evs = s.evs ++
      [Ev.logEntry .info
        "Migrating master data (products, customers, sellers, payment terms)",
       Ev.logEntry .info "Migrating sales and sale items",
       Ev.logEntry .info "Migrating customer payments",
       Ev.logEntry .info "Migrating stock movements",
       Ev.logEntry .info "Generating reconciliation report",
       Ev.statusUpdate "completed",
       Ev.logEntry .info "Legacy data import completed successfully"] := by
  simp [migrateAndFinish, emit, List.append_assoc]

/-- Shape of a successful run's trace: the fixed prefix (status to running,
preparation log, schema, and — under overwrite — the clearing log and the
truncation of every core table), then status-update-free staging events,
then the five stage logs, the completion update and the final log. -/
theorem runImport_evs_shape (jd : String → Option ℤ) (nts : ℚ → String)
    (di : ℤ → String) (env : Env) (ow : Bool) (s0 : St)
    (h : ∀ f ∈ REQUIRED_FILES, env.files.contains f = true) :
    ∃ t, ((runImport jd nts di env ow s0).1).evs =
      ((if ow then
        (emit (emit (emit s0 (.statusUpdate "running"))
          (.logEntry .info "Preparing legacy files for import")) .ensureSchemaEv).evs ++
          [Ev.logEntry .info "Clearing existing data before import"] ++
          CORE_TABLES.map Ev.truncateTable
       else
        (emit (emit (emit s0 (.statusUpdate "running"))
          (.logEntry .info "Preparing legacy files for import")) .ensureSchemaEv).evs) ++ t) ++
      [Ev.logEntry .info
        "Migrating master data (products, customers, sellers, payment terms)",
       Ev.logEntry .info "Migrating sales and sale items",
       Ev.logEntry .info "Migrating customer payments",
       Ev.logEntry .info "Migrating stock movements",
       Ev.logEntry .info "Generating reconciliation report",
       Ev.statusUpdate "completed",
       Ev.logEntry .info "Legacy data import completed successfully"] ∧
      ∀ e ∈ t, isStatusEv e = false := by
  simp only [runImport, find?_required_none env h]
  obtain ⟨t1, h1, hs1⟩ := truncateStagingTables_evs_extends
    (if ow then
      truncateCoreTables (emit (emit (emit (emit s0 (.statusUpdate "running"))
        (.logEntry .info "Preparing legacy files for import")) .ensureSchemaEv)
        (.logEntry .info "Clearing existing data before import"))
     else (emit (emit (emit s0 (.statusUpdate "running"))
        (.logEntry .info "Preparing legacy files for import")) .ensureSchemaEv))
  obtain ⟨t2, h2, hs2⟩ := foldl_evs_extends (loadStage nts di env)
    (fun s2 cfg => loadStage_evs_extends nts di env s2 cfg) STAGING_CONFIG
    (truncateStagingTables
      (if ow then
        truncateCoreTables (emit (emit (emit (emit s0 (.statusUpdate "running"))
          (.logEntry .info "Preparing legacy files for import")) .ensureSchemaEv)
          (.logEntry .info "Clearing existing data before import"))
       else (emit (emit (emit s0 (.statusUpdate "running"))
          (.logEntry .info "Preparing legacy files for import")) .ensureSchemaEv)))
  refine ⟨t1 ++ t2, ?_, ?_⟩
  · rw [migrateAndFinish_evs, h2, h1]
    cases ow with
    | false => simp [List.append_assoc]
    | true => simp [truncateCoreTables, emit, List.append_assoc]
  · intro e he
    rcases List.mem_append.mp he with h3 | h3
    · exact hs1 e h3
    · exact hs2 e h3

/-- Under overwrite, a successful run's trace truncates every core table. -/
theorem runImport_overwrite_truncates (jd : String → Option ℤ) (nts : ℚ → String)
    (di : ℤ → String) (env : Env) (s0 : St)
    (h : ∀ f ∈ REQUIRED_FILES, env.files.contains f = true)
    (tb : String) (htb : tb ∈ CORE_TABLES) :
    Ev.truncateTable tb ∈ ((runImport jd nts di env true s0).1).evs := by
  obtain ⟨t, hevs, _⟩ := runImport_evs_shape jd nts di env true s0 h
  rw [hevs]
  refine List.mem_append_left _ (List.mem_append_left _ ?_)
  simp only [if_pos rfl]
  exact List.mem_append_right _ (List.mem_map_of_mem _ htb)

/-! ## Claim C1: fail before destroy -/

/-- C1: when any required legacy file is missing from the normalized file
map, the run raises an error ("Required legacy file ... missing after
extraction") and terminates before any truncation — of core tables or of
staging tables — is executed, regardless of the overwrite flag: the whole
trace of the failed run contains no truncate event at all. -/
theorem runImport_missing_required_fails_before_truncate
    (jd : String → Option ℤ) (nts : ℚ → String) (di : ℤ → String) (env : Env)
    (ow : Bool) (db : Db) (store : StagingStore)
    (h : ∃ f ∈ REQUIRED_FILES, env.files.contains f = false) :
    (∃ msg, (runImport jd nts di env ow ⟨db, store, []⟩).2 = Except.error msg) ∧
    ∀ e ∈ ((runImport jd nts di env ow ⟨db, store, []⟩).1).evs,
      ∀ t, e ≠ Ev.truncateTable t := by
  obtain ⟨f0, hf0, hc⟩ := h
  have hsome : (REQUIRED_FILES.find? (fun f => !(env.files.contains f))).isSome = true := by
    rw [List.find?_isSome]
    exact ⟨f0, hf0, by rw [hc]; rfl⟩
  obtain ⟨f1, hf1⟩ := Option.isSome_iff_exists.mp hsome
  constructor
  · exact ⟨"Required legacy file " ++ f1 ++ " missing after extraction",
      by simp only [runImport, hf1]⟩
  · intro e he t
    simp only [runImport, hf1, emit] at he
    simp at he
    rcases he with rfl | rfl <;> simp

/-- C1 witness: a concrete environment missing VENDAS.DBF errors out. -/
theorem runImport_missing_required_witness :
    ∃ msg, (runImport jd0 nts0 di0 envMissingVendas true ⟨emptyDb, [], []⟩).2 =
      Except.error msg :=
  (runImport_missing_required_fails_before_truncate jd0 nts0 di0 envMissingVendas
    true emptyDb [] (by decide)).1

/-! ## Claim C2: overwrite scope -/

/-- C2 (counterexample to the claim as stated): a run with overwrite=true
does delete the legacy-code-keyed reference tables. Starting from a
database holding one product_group row (and uploads with all required
files), the completed run leaves product_group empty and its trace
truncates the reference tables. -/
theorem overwrite_truncates_reference_tables_cex :
    dbPG.product_group ≠ [] ∧
    ((runImport jd0 nts0 di0 envAllRequired true stPG).1).db.product_group = [] ∧
    Ev.truncateTable "product_group" ∈
      ((runImport jd0 nts0 di0 envAllRequired true stPG).1).evs := by
  refine ⟨by decide, by rfl, by decide⟩

/-- C2 (amended): inside the Transaction Migrator, overwrite deletes exactly
the previously migrated sales whose source label is VENDAS or PEDIDOS
(rows with any other source survive), and `migrateSales` never deletes the
five legacy-code-keyed reference tables; however `runImport` with
overwrite=true first truncates every core table — the reference entity
tables included — so at run level overwrite is a full replace, not a merge
of reference data. -/
theorem overwrite_delete_scope (jd : String → Option ℤ) (nts : ℚ → String)
    (di : ℤ → String) (db : Db) :
    (∀ r ∈ db.sale, ¬(r.source = some "VENDAS" ∨ r.source = some "PEDIDOS") →
      r ∈ (overwriteDeleteSales db).sale) ∧
    (∀ r ∈ (overwriteDeleteSales db).sale,
      r ∈ db.sale ∧ ¬(r.source = some "VENDAS" ∨ r.source = some "PEDIDOS")) ∧
    (∀ (ow : Bool) (stg : Staging),
      refFrame ((migrateSales jd ow stg db).1) = refFrame db) ∧
    (∀ (env : Env) (store : StagingStore),
      (∀ f ∈ REQUIRED_FILES, env.files.contains f = true) →
      ∀ tb ∈ CORE_TABLES,
        Ev.truncateTable tb ∈ ((runImport jd nts di env true ⟨db, store, []⟩).1).evs) := by
  refine ⟨?_, ?_, ?_, ?_⟩
  · intro r hr hne
    refine List.mem_filter.mpr ⟨hr, ?_⟩
    simp only [Bool.not_eq_true', Bool.or_eq_false_iff, beq_eq_false_iff_ne]
    exact ⟨fun hv => hne (Or.inl hv), fun hp => hne (Or.inr hp)⟩
  · intro r hr
    obtain ⟨hmem, hp⟩ := List.mem_filter.mp hr
    refine ⟨hmem, ?_⟩
    simp only [Bool.not_eq_true', Bool.or_eq_false_iff, beq_eq_false_iff_ne] at hp
    rintro (hv | hp2)
    · exact hp.1 hv
    · exact hp.2 hp2
  · intro ow stg
    exact migrateSales_refFrame jd ow stg db
  · intro env store hreq tb htb
    exact runImport_overwrite_truncates jd nts di env ⟨db, store, []⟩ hreq tb htb

/-! ## Claim C7: status machine -/

/-- C7: processing any job yields exactly the forward status-update sequence
running→completed or running→failed (never revisiting queued); the startup
recovery resets exactly the jobs left in running back to queued with
started_at cleared, leaves every other job untouched, and re-enqueues them
(the requeued list holds only queued jobs, and every recovered running job
is in it). -/
theorem job_status_forward_progress (jd : String → Option ℤ) (nts : ℚ → String)
    (di : ℤ → String) (env : Env) (ow : Bool) (db : Db) (store : StagingStore) :
    (statusTrace ((processJob jd nts di env ow ⟨db, store, []⟩).evs) =
        ["running", "completed"] ∨
     statusTrace ((processJob jd nts di env ow ⟨db, store, []⟩).evs) =
        ["running", "failed"]) ∧
    (∀ (jobs : List JobRow), ∀ j ∈ jobs,
      (j.status = "running" → JobRow.mk j.id "queued" none ∈ recoverRunningJobs jobs) ∧
      (j.status ≠ "running" → j ∈ recoverRunningJobs jobs)) ∧
    (∀ (jobs : List JobRow), ∀ j ∈ requeuedJobs jobs, j.status = "queued") ∧
    (∀ (jobs : List JobRow), ∀ j ∈ jobs, j.status = "running" →
      JobRow.mk j.id "queued" none ∈ requeuedJobs jobs) := by
  refine ⟨?_, ?_, ?_, ?_⟩
  · cases hfind : REQUIRED_FILES.find? (fun f => !(env.files.contains f)) with
    | some f =>
      refine Or.inr ?_
      simp only [processJob, runImport, hfind]
      rfl
    | none =>
      refine Or.inl ?_
      have hreq : ∀ f ∈ REQUIRED_FILES, env.files.contains f = true := by
        intro f hf
        have hx := List.find?_eq_none.mp hfind f hf
        simpa using hx
      obtain ⟨t, hevs, hst⟩ := runImport_evs_shape jd nts di env ow ⟨db, store, []⟩ hreq
      have hok : processJob jd nts di env ow ⟨db, store, []⟩ =
          (runImport jd nts di env ow ⟨db, store, []⟩).1 := by
        simp only [processJob, runImport, hfind]
      rw [hok, hevs, statusTrace_append, statusTrace_append,
        statusTrace_eq_nil_of_no_status t hst, List.append_nil]
      cases ow <;> rfl
  · intro jobs j hj
    constructor
    · intro hrun
      refine List.mem_map.mpr ⟨j, hj, ?_⟩
      simp [hrun]
    · intro hnrun
      refine List.mem_map.mpr ⟨j, hj, ?_⟩
      simp [hnrun]
  · intro jobs j hj
    have hq := (List.mem_filter.mp hj).2
    simpa using hq
  · intro jobs j hj hrun
    refine List.mem_filter.mpr ⟨?_, by rfl⟩
    refine List.mem_map.mpr ⟨j, hj, ?_⟩
    simp [hrun]

/-! ## Claim C8: optional-source skip -/

/-- C8: a configured staging source whose file is absent from the normalized
map is skipped: the load appends exactly one warning-level (not error-level)
log entry, performs no table creation, truncation or insert (staging store
and database are untouched), returns a row count of 0, and the job is not
aborted (any run whose required files are all present returns ok). -/
theorem optional_source_skip (nts : ℚ → String) (di : ℤ → String)
    (cfg : StagingConfig) (env : Env) (s : St)
    (h : env.files.contains cfg.file = false) :
    (loadDbfIntoStaging nts di cfg env s).2 = 0 ∧
    ((loadDbfIntoStaging nts di cfg env s).1).evs =
      s.evs ++ [Ev.logEntry .warn
        ("Optional file " ++ cfg.file ++ " not provided; skipping.")] ∧
    ((loadDbfIntoStaging nts di cfg env s).1).store = s.store ∧
    ((loadDbfIntoStaging nts di cfg env s).1).db = s.db ∧
    (∀ (jd : String → Option ℤ) (env2 : Env) (ow : Bool) (s0 : St),
      (∀ f ∈ REQUIRED_FILES, env2.files.contains f = true) →
      (runImport jd nts di env2 ow s0).2 = Except.ok ()) := by
  have hneg : ¬(env.files.contains cfg.file = true) := by rw [h]; decide
  refine ⟨?_, ?_, ?_, ?_, ?_⟩
  · simp only [loadDbfIntoStaging, if_neg hneg]
  · simp only [loadDbfIntoStaging, if_neg hneg]
    rfl
  · simp only [loadDbfIntoStaging, if_neg hneg]
    rfl
  · simp only [loadDbfIntoStaging, if_neg hneg]
    rfl
  · intro jd env2 ow s0 hreq
    exact runImport_ok_of_required jd nts di env2 ow s0 hreq

/-- C8 witness: FORMA_PG.DBF absent from an upload holding only the five
required files is skipped with count 0. -/
theorem optional_source_skip_witness :
    (loadDbfIntoStaging nts0 di0 ⟨"FORMA_PG.DBF", "stg_forma_pg", []⟩
      envAllRequired stEmpty).2 = 0 :=
  (optional_source_skip nts0 di0 ⟨"FORMA_PG.DBF", "stg_forma_pg", []⟩
    envAllRequired stEmpty (by decide)).1


theorem migrateTxnRow_counts (jd : String → Option ℤ) (m : SaleMaps) (io : Bool)
    (acc : Db × SaleSummary) (r : StgSaleRow) :
    ((migrateTxnRow jd m io acc r).2).sales =
      acc.2.sales + (if io then 0 else if truthy r.pedido then 1 else 0) ∧
    ((migrateTxnRow jd m io acc r).2).orders =
      acc.2.orders + (if io then (if truthy r.pedido then 1 else 0) else 0) := by
  cases ht : truthy r.pedido with
  | false => cases io <;> simp [migrateTxnRow, ht]
  | true =>
    simp only [migrateTxnRow, ht, if_true]
    rw [itemsFold_char]
    cases io <;> simp

theorem txnFold_counts (jd : String → Option ℤ) (m : SaleMaps) (io : Bool)
    (rows : List StgSaleRow) (acc : Db × SaleSummary) :
    ((rows.foldl (migrateTxnRow jd m io) acc).2).sales =
      acc.2.sales + (if io then 0 else (rows.filter (fun r => truthy r.pedido)).length) ∧
    ((rows.foldl (migrateTxnRow jd m io) acc).2).orders =
      acc.2.orders + (if io then (rows.filter (fun r => truthy r.pedido)).length else 0) := by
  induction rows generalizing acc with
  | nil => cases io <;> simp
  | cons r rest ih =>
    rw [List.foldl_cons, List.filter_cons]
    obtain ⟨hs, ho⟩ := ih (migrateTxnRow jd m io acc r)
    obtain ⟨hs1, ho1⟩ := migrateTxnRow_counts jd m io acc r
    constructor
    · rw [hs, hs1]
      cases io <;> cases ht : truthy r.pedido <;> simp [ht] <;> omega
    · rw [ho, ho1]
      cases io <;> cases ht : truthy r.pedido <;> simp [ht] <;> omega

/-- Every truthy-keyed staged row of both passes is processed and counted:
mismatches do not stop the loops. -/
theorem migrateSales_row_counts (jd : String → Option ℤ) (stg : Staging) (db : Db) :
    ((migrateSales jd false stg db).2).sales =
      (stg.stg_vendas.filter (fun r => truthy r.pedido)).length ∧
    ((migrateSales jd false stg db).2).orders =
      (stg.stg_pedidos.filter (fun r => truthy r.pedido)).length := by
  rw [migrateSales_eq]
  obtain ⟨hsP, hoP⟩ := txnFold_counts jd (salesMapsOf db) true stg.stg_pedidos
    (stg.stg_vendas.foldl (migrateTxnRow jd (salesMapsOf db) false) (db, ⟨0, 0, 0, 0, []⟩))
  obtain ⟨hsV, hoV⟩ := txnFold_counts jd (salesMapsOf db) false stg.stg_vendas
    (db, ⟨0, 0, 0, 0, []⟩)
  rw [hsP, hsV, hoP, hoV]
  simp

/-! ## Claim C6: referential skip safety -/

/-- C6 (counterexample to the claim as stated): an extracted item of an
orders (PEDIDOS) row — carrying a parseable emission date, so the real
header insert satisfies `emission_date not null` and the item loop is
reached — with an unknown product code yields the mismatch string
"Order 1: product P9 not found"; the claimed "Sale <key>" form is not
recorded for it. -/
theorem order_mismatch_prefix_cex :
    ((migrateSales jdOk false stgOrdDated emptyDb).2).mismatches =
      ["Order 1: product P9 not found"] ∧
    "Sale 1: product P9 not found" ∉
      ((migrateSales jdOk false stgOrdDated emptyDb).2).mismatches := by
  refine ⟨by rfl, ?_⟩
  rw [show ((migrateSales jdOk false stgOrdDated emptyDb).2).mismatches =
    ["Order 1: product P9 not found"] from rfl]
  decide

/-- C6 (amended): provided every processed transactional row carries a
parseable emission date — the sale DDL declares `emission_date date not
null`, so on a row with a null normalized date the real header insert
raises a not-null violation and aborts the run before the item loop — an
extracted item whose product code has no entry in the product legacy-code
lookup map is omitted: the item loop inserts exactly the resolvable items,
and this item resolves to none, while a mismatch string naming the row key
and the product code is appended to the summary, with prefix "Sale " for
rows of the sales pass and "Order " for rows of the orders pass. The
parent Sale header row is still created (a row keyed by the pass's source
and the trimmed key is present afterwards), and the unresolved product is
not fatal: every truthy-keyed staged row of both passes is still processed
and counted. -/
theorem unresolved_product_skip (jd : String → Option ℤ) (stg : Staging) (db : Db)
    (r : StgSaleRow) (item : SaleItem) (ht : truthy r.pedido = true)
    (hitem : item ∈ extractSaleItems r)
    (hmiss : mapGet (salesMapsOf db).productMap item.cod = none)
    (hdV : ∀ r2 ∈ stg.stg_vendas, truthy r2.pedido = true → saleDateOk jd r2 = true)
    (hdP : ∀ r2 ∈ stg.stg_pedidos, truthy r2.pedido = true → saleDateOk jd r2 = true) :
    (r ∈ stg.stg_vendas →
      ("Sale " ++ txnKey r ++ ": product " ++ item.cod ++ " not found") ∈
        ((migrateSales jd false stg db).2).mismatches ∧
      salePresent ((migrateSales jd false stg db).1).sale "VENDAS" (txnKey r) = true) ∧
    (r ∈ stg.stg_pedidos →
      ("Order " ++ txnKey r ++ ": product " ++ item.cod ++ " not found") ∈
        ((migrateSales jd false stg db).2).mismatches ∧
      salePresent ((migrateSales jd false stg db).1).sale "PEDIDOS" (txnKey r) = true) ∧
    (∀ (d : Db) (s : SaleSummary) (sid : ℕ) (io : Bool) (key : String),
      (((extractSaleItems r).foldl (itemStep (salesMapsOf db) io sid key) (d, s)).1).sale_item =
        d.sale_item ++ (extractSaleItems r).filterMap (resolvedItemOf (salesMapsOf db) sid)) ∧
    (∀ sid : ℕ, resolvedItemOf (salesMapsOf db) sid item = none) ∧
    (((migrateSales jd false stg db).2).sales =
      (stg.stg_vendas.filter (fun r2 => truthy r2.pedido)).length ∧
     ((migrateSales jd false stg db).2).orders =
      (stg.stg_pedidos.filter (fun r2 => truthy r2.pedido)).length) := by
  refine ⟨?_, ?_, ?_, ?_, ?_⟩
  · intro hr
    constructor
    · rw [migrateSales_eq]
      refine txnFold_mismatches_mono jd (salesMapsOf db) true stg.stg_pedidos _ _ ?_
      refine txnFold_mismatch_of_mem jd (salesMapsOf db) false stg.stg_vendas _ r item _
        hr ht hitem ?_
      simp [itemMismatchOf, hmiss]
    · exact (migrateSales_presence jd stg db).1 r hr ht
  · intro hr
    constructor
    · rw [migrateSales_eq]
      refine txnFold_mismatch_of_mem jd (salesMapsOf db) true stg.stg_pedidos _ r item _
        hr ht hitem ?_
      simp [itemMismatchOf, hmiss]
    · exact (migrateSales_presence jd stg db).2 r hr ht
  · intro d s sid io key
    rw [itemsFold_char]
  · intro sid
    simp [resolvedItemOf, hmiss]
  · exact migrateSales_row_counts jd stg db

/-- C6 witness: the dated orders row with unknown product P9 — its
emission date parseable, so the hypotheses of the amended claim hold —
records its mismatch string in the summary of a concrete run. -/
theorem unresolved_product_skip_witness :
    "Order 1: product P9 not found" ∈
      ((migrateSales jdOk false stgOrdDated emptyDb).2).mismatches := by
  have h := unresolved_product_skip jdOk stgOrdDated emptyDb ordRowDated
    (slotItem (ordRowDated.slot 1)) (by decide) (by decide) (by decide)
    (by decide) (by decide)
  have h2 := (h.2.1) (by decide)
  have h3 := h2.1
  rw [show ("Order " ++ txnKey ordRowDated ++ ": product " ++
      (slotItem (ordRowDated.slot 1)).cod ++ " not found") =
      "Order 1: product P9 not found" from rfl] at h3
  exact h3

/-- C9 witness: a truthy slot with a NULL quantity cell yields an item with
quantity 0. -/
theorem slot_numeric_zero_default_witness :
    (slotItem (ordRow.slot 1)).quantity = 0 := by
  have h := slot_numeric_zero_default ordRow 1 (by decide) (by decide)
  exact h.2.2.1 rfl


end PosImport
